import Mathlib

/-!
Verification of the axiom-synthesis and query-compilation engine of the
clinical chatbot (src/core.py and src/utils.py), as a shallow embedding.

Conventions used throughout this development:
* a cvc5 `Result` is modelled by `Outcome` (sat / unsat / unknown);
* the engine call inside `create_solver_and_check_sat` is modelled as an
  `Except`-valued parameter, because the Python code may receive an exception
  from the cvc5 engine; Python exception propagation is modelled by the
  `Except` monad;
* character/string manipulating helpers from src/utils.py are translated to
  `List Char` functions, with `String` wrappers where the source works on
  whole strings.
-/

namespace Clinical

/-- Model of a cvc5 `Result`: satisfiable, unsatisfiable, or unknown. -/
inductive Outcome
  | sat
  | unsat
  | unknown
deriving DecidableEq, Repr

/-- cvc5 `Result.isUnsat`. -/
def Outcome.isUnsat : Outcome → Bool
  | .unsat => true
  | _ => false

/-- cvc5 `Result.isSat`. -/
def Outcome.isSat : Outcome → Bool
  | .sat => true
  | _ => false

/-- The verdict-combination tail of `check_statement_validity`
(src/core.py, lines 944-954): the if/elif chain over
`negated_result.isUnsat()`, `orig_result.isUnsat()`, `orig_result.isSat()`,
`negated_result.isSat()`, in that order. -/
def combine_results (orig_result negated_result : Outcome) : String :=
  if negated_result.isUnsat then "true"
  else if orig_result.isUnsat then "false"
  else if orig_result.isSat then "true"
  else if negated_result.isSat then "false"
  else "unknown"

/-- The precedence table exactly as the claim words it, written independently
of `combine_results`: rules applied in order (1) negResult unsat, (2)
origResult unsat, (3) origResult sat, (4) negResult sat, (5) unknown. -/
def claimed_precedence_table (origResult negResult : Outcome) : String :=
  if negResult = .unsat then "true"
  else if origResult = .unsat then "false"
  else if origResult = .sat then "true"
  else if negResult = .sat then "false"
  else "unknown"

/-- C1: for every pair of raw query outcomes, the sequential validity
checker's verdict combination agrees with the spec's five ordered rules;
in particular when both queries are sat the verdict is "true" (rule 3
applies before rule 4). -/
theorem C1_sequential_precedence :
    (∀ origResult negResult : Outcome,
      combine_results origResult negResult =
        claimed_precedence_table origResult negResult) ∧
    combine_results .sat .sat = "true" := by
  constructor
  · intro o n
    cases o <;> cases n <;> rfl
  · rfl

/-- Which of the two racing worker processes finished first:
`p1` runs the original query ("orig"), `p2` the negated query ("negated"). -/
inductive Which
  | orig
  | negated
deriving DecidableEq, Repr

/-- The verdict derivation of `check_statement_validity_in_parallel`
(src/core.py, lines 1004-1019): from only the first worker's lowercased
result string and which query that worker ran.  `finished_pid == p2.pid`
means the negated query finished first. -/
def parallel_verdict (which : Which) (result : String) : String :=
  match which with
  | .negated =>
      if result = "unsat" then "true"
      else if result = "sat" then "false"
      else "unknown"
  | .orig =>
      if result = "unsat" then "false"
      else if result = "sat" then "true"
      else "unknown"

/-- C4: the parallel validity checker derives its verdict from only the first
worker's answer and which query that worker ran: negated first maps
unsat/sat/other to true/false/unknown, original first maps unsat/sat/other to
false/true/unknown.  The two-sided precedence table is not consulted: the
final conjunct exhibits a first-answer/whole-table divergence (negated
finishing first with "unknown" yields "unknown" even though the table applied
to a sat original query would yield "true"). -/
theorem C4_parallel_verdict :
    parallel_verdict .negated "unsat" = "true" ∧
    parallel_verdict .negated "sat" = "false" ∧
    (∀ r : String, r ≠ "unsat" → r ≠ "sat" →
      parallel_verdict .negated r = "unknown") ∧
    parallel_verdict .orig "unsat" = "false" ∧
    parallel_verdict .orig "sat" = "true" ∧
    (∀ r : String, r ≠ "unsat" → r ≠ "sat" →
      parallel_verdict .orig r = "unknown") ∧
    parallel_verdict .negated "unknown" ≠
      combine_results Outcome.sat Outcome.unknown := by
  refine ⟨rfl, rfl, ?_, rfl, rfl, ?_, by decide⟩ <;>
    · intro r h1 h2
      simp [parallel_verdict, h1, h2]

/-- Witness for C4: the "anything else maps to unknown" conjuncts applied at
the concrete first-worker answer "none" (which is neither "unsat" nor
"sat"). -/
theorem C4_parallel_verdict_witness :
    parallel_verdict .negated "none" = "unknown" ∧
    parallel_verdict .orig "none" = "unknown" :=
  ⟨C4_parallel_verdict.2.2.1 "none" (by decide) (by decide),
   C4_parallel_verdict.2.2.2.2.2.1 "none" (by decide) (by decide)⟩

/-- The TFU ("true, false, or unknown") datatype declared in `Solver.__init__`
(src/core.py, lines 409-419), with its three nullary constructors. -/
inductive TFU
  | tfu_true
  | tfu_false
  | tfu_true_or_false
deriving DecidableEq, Repr

/-- The cvc5 sorts the engine uses: Boolean, Integer, Real, String, the 64-bit
floating-point sort `fp64_sort = mkFloatingPointSort(11, 53)`, the TFU
datatype sort, and function sorts built by `mkFunctionSort`. -/
inductive CSort
  | bool
  | int
  | real
  | str
  | fp64
  | tfu
  | fnSort (arity : ℕ) (ret : CSort)
deriving DecidableEq, Repr

/-- The cvc5 term kinds the engine touches: the operator kinds appearing in
`SUPPORTED_KINDS` (src/core.py, lines 32-59) plus the constant/leaf kinds the
compiler inspects (`CONST_INTEGER`, `CONSTANT`, ...). -/
inductive CKind
  | FLOATINGPOINT_EQ
  | EQUAL
  | AND
  | OR
  | NOT
  | FLOATINGPOINT_DIV
  | FLOATINGPOINT_ADD
  | FLOATINGPOINT_SUB
  | FLOATINGPOINT_LT
  | FLOATINGPOINT_LEQ
  | FLOATINGPOINT_GT
  | FLOATINGPOINT_GEQ
  | DIVISION
  | ADD
  | SUB
  | LT
  | LEQ
  | GT
  | GEQ
  | FORALL
  | EXISTS
  | IMPLIES
  | CONST_INTEGER
  | CONST_RATIONAL
  | CONST_FLOATINGPOINT
  | CONST_STRING
  | CONST_BOOLEAN
  | APPLY_CONSTRUCTOR
  | VARIABLE
  | CONSTANT
  | APPLY_UF
deriving DecidableEq, Repr

/-- Model of a cvc5 `Term` as the engine builds them: integer literals
(`mkInteger`), real literals (`mkReal`), 64-bit floating-point literals
(`mkFp64`, carrying the encoded double's rational value), the NaN constant
(`mkNaN`), string literals (`mkString`), boolean literals (`mkBoolean`),
TFU datatype constants (`mk_tfu_*`), bound variables (`mkVar`), declared
function constants (`Function.cvc5_const`), uninterpreted-function
applications (`Kind.APPLY_UF`), operator nodes (`mkTerm`) and quantified
terms. -/
inductive CTerm
  | constInt (n : ℤ)
  | constReal (q : ℚ)
  | constFp (q : ℚ)
  | constNaN
  | constStr (s : String)
  | constBool (b : Bool)
  | constTfu (t : TFU)
  | boundVar (name : String) (sort : CSort)
  | fnConst (name : String) (argSorts : List CSort) (ret : CSort)
  | applyUF (fn : CTerm) (children : List CTerm)
  | node (kind : CKind) (children : List CTerm)
  | quant (kind : CKind) (vars : List (String × CSort)) (body : CTerm)

/-- cvc5 `Term.getKind` on the terms of this model. -/
def CTerm.kindOf : CTerm → CKind
  | .constInt _ => .CONST_INTEGER
  | .constReal _ => .CONST_RATIONAL
  | .constFp _ => .CONST_FLOATINGPOINT
  | .constNaN => .CONST_FLOATINGPOINT
  | .constStr _ => .CONST_STRING
  | .constBool _ => .CONST_BOOLEAN
  | .constTfu _ => .APPLY_CONSTRUCTOR
  | .boundVar _ _ => .VARIABLE
  | .fnConst _ _ _ => .CONSTANT
  | .applyUF _ _ => .APPLY_UF
  | .node k _ => k
  | .quant k _ _ => k

/-- Does this kind build a Boolean-sorted node? (Used only to give compound
nodes a sort; the verified claims inspect sorts of leaf terms.) -/
def CKind.isPredicate : CKind → Bool
  | .EQUAL | .FLOATINGPOINT_EQ | .AND | .OR | .NOT | .IMPLIES
  | .LT | .LEQ | .GT | .GEQ
  | .FLOATINGPOINT_LT | .FLOATINGPOINT_LEQ | .FLOATINGPOINT_GT
  | .FLOATINGPOINT_GEQ | .FORALL | .EXISTS => true
  | _ => false

/-- cvc5 `Term.getSort` on the terms of this model.  A declared function
constant of positive arity has the function sort `mkFunctionSort(args, ret)`;
a zero-arity one has its return sort directly (src/core.py, lines 79-85). -/
def CTerm.sortOf : CTerm → CSort
  | .constInt _ => .int
  | .constReal _ => .real
  | .constFp _ => .fp64
  | .constNaN => .fp64
  | .constStr _ => .str
  | .constBool _ => .bool
  | .constTfu _ => .tfu
  | .boundVar _ s => s
  | .fnConst _ argSorts ret =>
      match argSorts with
      | [] => ret
      | as => .fnSort as.length ret
  | .applyUF fn _ =>
      match fn with
      | .fnConst _ _ ret => ret
      | _ => .bool
  | .node k children =>
      if k.isPredicate then .bool
      else
        match children with
        | [] => .bool
        | c :: _ => c.sortOf
  | .quant _ _ _ => .bool

/-- cvc5 `Term.getIntegerValue`, defined on `CONST_INTEGER` terms. -/
def CTerm.intValue : CTerm → ℤ
  | .constInt n => n
  | _ => 0

/-- A declared relation (`Function.__init__`, src/core.py lines 62-86): a
name, the ordered (argument-name, argument-sort) list and the return sort. -/
structure FnDecl where
  name : String
  args : List (String × CSort)
  ret : CSort
deriving DecidableEq, Repr

/-- `Function.cvc5_const`: the constant the solver creates for a declared
relation. -/
def FnDecl.cvc5_const (f : FnDecl) : CTerm :=
  .fnConst f.name (f.args.map (·.2)) f.ret

/-- Python `str.lower()` restricted to ASCII data, as the source applies it to
tokens. -/
def pyLower (s : String) : String :=
  String.mk (s.toList.map Char.toLower)

/-- Numeric value of a list of decimal digit characters. -/
def digitsVal (cs : List Char) : ℕ :=
  cs.foldl (fun a c => a * 10 + (c.toNat - 48)) 0

/-- Python `int(x)` on the decimal tokens this code base passes it: an
optional sign followed by at least one decimal digit; `none` models the
`ValueError` Python raises otherwise. -/
def pyParseInt (s : String) : Option ℤ :=
  let p : ℤ × List Char :=
    match s.toList with
    | '-' :: rest => (-1, rest)
    | '+' :: rest => (1, rest)
    | cs => (1, cs)
  if p.2.isEmpty then none
  else if p.2.all Char.isDigit then some (p.1 * digitsVal p.2) else none

/-- Python `float(x)` on the decimal tokens this code base passes it: an
optional sign, then digits with at most one decimal point (at least one digit
overall); `none` models the `ValueError` Python raises otherwise.  The value
is kept as an exact rational. -/
def pyParseFloat (s : String) : Option ℚ :=
  let p : ℚ × List Char :=
    match s.toList with
    | '-' :: rest => (-1, rest)
    | '+' :: rest => (1, rest)
    | cs => (1, cs)
  let ip := p.2.takeWhile (· ≠ '.')
  let rest := p.2.drop ip.length
  match rest with
  | [] =>
      if ip.isEmpty then none
      else if ip.all Char.isDigit then some (p.1 * digitsVal ip) else none
  | _ :: fp =>
      if fp.contains '.' then none
      else if ip.isEmpty && fp.isEmpty then none
      else if ip.all Char.isDigit && fp.all Char.isDigit then
        some (p.1 * ((digitsVal ip : ℚ) + digitsVal fp / 10 ^ fp.length))
      else none

/-- `Solver._convert_literal_to_term` (src/core.py, lines 620-674) on a raw
string value `x`: the sentinel checks in source order (the five word
sentinels compared exactly, only "nan" through `.lower()`), then the bound
quantifier variables (most recent first), then the registered functions
(matched only at declared arity 1), then the declared-sort conversions, and
finally the sortless fallback: cast to float when the text contains a dot
else to int, and on failure fall back to `mkString` (which accepts any
string). -/
def _convert_literal_to_term (all_functions : List FnDecl) (x : String)
    (varList : List (String × CSort)) (known_sort : Option CSort) :
    Except String CTerm :=
  if x = "tfu_true" then .ok (.constTfu .tfu_true)
  else if x = "tfu_false" then .ok (.constTfu .tfu_false)
  else if x = "tfu_true_or_false" then .ok (.constTfu .tfu_true_or_false)
  else if x = "true" then .ok (.constBool true)
  else if x = "false" then .ok (.constBool false)
  else if pyLower x = "nan" then .ok .constNaN
  else
    match varList.reverse.find? (fun v => v.1 == x) with
    | some v => .ok (.boundVar v.1 v.2)
    | none =>
      match all_functions.find? (fun f => f.name == x && f.args.length == 1) with
      | some f => .ok f.cvc5_const
      | none =>
        match known_sort with
        | some s =>
          if s = .int then
            match pyParseInt x with
            | some n => .ok (.constInt n)
            | none => .error "ValueError: invalid literal for int"
          else if s = .fp64 then
            match pyParseFloat x with
            | some q => .ok (.constFp q)
            | none => .error "ValueError: could not convert string to float"
          else if s = .str then .ok (.constStr x)
          else .error "_convert_literal_to_term: port me!"
        | none =>
          if x.toList.contains '.' then
            match pyParseFloat x with
            | some q => .ok (.constFp q)
            | none => .ok (.constStr x)
          else
            match pyParseInt x with
            | some n => .ok (.constInt n)
            | none => .ok (.constStr x)

/-- Counterexample to C6: the claim says the sentinel "true" is recognized
case-insensitively, and that every non-numeric, non-sentinel value is fatal.
On the input "TRUE" (no declared sort, no bound variables, no registered
constants) the code does neither: the sentinel comparison `x == "true"` is
exact, so "TRUE" falls through every sentinel check, and the fallback's
`mkString` then succeeds, yielding a String-sorted term rather than the
boolean constant — and not an exception. -/
theorem C6_literal_conversion_counterexample :
    _convert_literal_to_term [] "TRUE" [] none = .ok (.constStr "TRUE") ∧
    Except.ok (CTerm.constStr "TRUE") ≠
      (Except.ok (CTerm.constBool true) : Except String CTerm) := by
  exact ⟨rfl, by simp⟩

/-- C6 amended: with no declared sort and no matching variable or registered
constant, the five word sentinels are matched exactly (case-sensitively) and
only "nan" is matched case-insensitively; a dotted numeric token becomes a
floating-point term, an integral numeric token an integer term; and every
other string value is not fatal: it becomes a String constant, so the
conversion never raises on a string input. -/
theorem C6_literal_conversion :
    (_convert_literal_to_term [] "tfu_true" [] none =
        .ok (.constTfu .tfu_true)) ∧
    (_convert_literal_to_term [] "tfu_false" [] none =
        .ok (.constTfu .tfu_false)) ∧
    (_convert_literal_to_term [] "tfu_true_or_false" [] none =
        .ok (.constTfu .tfu_true_or_false)) ∧
    (_convert_literal_to_term [] "true" [] none = .ok (.constBool true)) ∧
    (_convert_literal_to_term [] "false" [] none = .ok (.constBool false)) ∧
    (∀ x : String, x ≠ "tfu_true" → x ≠ "tfu_false" →
      x ≠ "tfu_true_or_false" → x ≠ "true" → x ≠ "false" →
      pyLower x = "nan" →
      _convert_literal_to_term [] x [] none = .ok .constNaN) ∧
    (∀ (x : String) (q : ℚ), x ≠ "tfu_true" → x ≠ "tfu_false" →
      x ≠ "tfu_true_or_false" → x ≠ "true" → x ≠ "false" →
      pyLower x ≠ "nan" → x.toList.contains '.' = true →
      pyParseFloat x = some q →
      _convert_literal_to_term [] x [] none = .ok (.constFp q)) ∧
    (∀ (x : String) (n : ℤ), x ≠ "tfu_true" → x ≠ "tfu_false" →
      x ≠ "tfu_true_or_false" → x ≠ "true" → x ≠ "false" →
      pyLower x ≠ "nan" → x.toList.contains '.' = false →
      pyParseInt x = some n →
      _convert_literal_to_term [] x [] none = .ok (.constInt n)) ∧
    (∀ x : String, ∃ t : CTerm,
      _convert_literal_to_term [] x [] none = .ok t) := by
  refine ⟨rfl, rfl, rfl, rfl, rfl, ?_, ?_, ?_, ?_⟩
  · intro x h1 h2 h3 h4 h5 h6
    simp [_convert_literal_to_term, h1, h2, h3, h4, h5, h6]
  · intro x q h1 h2 h3 h4 h5 h6 h7 h8
    have h7' : '.' ∈ x.data := by simpa using h7
    simp [_convert_literal_to_term, h1, h2, h3, h4, h5, h6, h7', h8]
  · intro x n h1 h2 h3 h4 h5 h6 h7 h8
    have h7' : '.' ∉ x.data := by simpa using h7
    simp [_convert_literal_to_term, h1, h2, h3, h4, h5, h6, h7', h8]
  · intro x
    unfold _convert_literal_to_term
    repeat' split
    all_goals simp_all

/-- Witness for C6: the sentinel, numeric and fallback clauses applied at the
concrete inputs "NaN", "55.0", "12815" and "hello". -/
theorem C6_literal_conversion_witness :
    _convert_literal_to_term [] "NaN" [] none = .ok .constNaN ∧
    _convert_literal_to_term [] "55.0" [] none = .ok (.constFp 55) ∧
    _convert_literal_to_term [] "12815" [] none = .ok (.constInt 12815) ∧
    ∃ t : CTerm, _convert_literal_to_term [] "hello" [] none = .ok t :=
  ⟨C6_literal_conversion.2.2.2.2.2.1 "NaN" (by decide) (by decide) (by decide)
      (by decide) (by decide) (by decide),
   C6_literal_conversion.2.2.2.2.2.2.1 "55.0" 55 (by decide) (by decide)
      (by decide) (by decide) (by decide) (by decide) (by decide)
      (by simp [pyParseFloat, digitsVal]),
   C6_literal_conversion.2.2.2.2.2.2.2.1 "12815" 12815 (by decide) (by decide)
      (by decide) (by decide) (by decide) (by decide) (by decide) (by decide),
   C6_literal_conversion.2.2.2.2.2.2.2.2 "hello"⟩

/-- A parsed s-expression as `parse_sexpr_from_str` returns it: an atom
(Python `str`) or a nested list. -/
inductive SExpr
  | atom (s : String)
  | list (xs : List SExpr)

/-- The `SUPPORTED_KINDS` operator table (src/core.py, lines 32-59). -/
def SUPPORTED_KINDS : String → Option CKind
  | "fp=" => some .FLOATINGPOINT_EQ
  | "=" => some .EQUAL
  | "and" => some .AND
  | "or" => some .OR
  | "not" => some .NOT
  | "fp/" => some .FLOATINGPOINT_DIV
  | "fp+" => some .FLOATINGPOINT_ADD
  | "fp-" => some .FLOATINGPOINT_SUB
  | "fp<" => some .FLOATINGPOINT_LT
  | "fp<=" => some .FLOATINGPOINT_LEQ
  | "fp>" => some .FLOATINGPOINT_GT
  | "fp>=" => some .FLOATINGPOINT_GEQ
  | "/" => some .DIVISION
  | "+" => some .ADD
  | "-" => some .SUB
  | "<" => some .LT
  | "<=" => some .LEQ
  | ">" => some .GT
  | ">=" => some .GEQ
  | "forall" => some .FORALL
  | "exists" => some .EXISTS
  | "=>" => some .IMPLIES
  | "implies" => some .IMPLIES
  | "->" => some .IMPLIES
  | _ => none

/-- The in-place child coercion `sexpr_to_term` performs on the two children
of an equality node (src/core.py, lines 587-600), extracted as a helper: an
integer-literal child compared against a zero-arity constant of the 64-bit
floating-point sort is replaced by `mkReal(float(...))`, a Real-sorted
rational constant of the same numeric value.  (In the source the second
condition reads the possibly already reassigned `children[0]`, hence `c0h`
below.  An equality node in this code base always has two children.) -/
def coerce_equal_children (children : List CTerm) : List CTerm :=
  match children with
  | [c0, c1] =>
      let c0h :=
        if c0.kindOf = .CONST_INTEGER ∧ c0.sortOf = .int ∧
            c1.kindOf = .CONSTANT ∧ c1.sortOf = .fp64 then
          CTerm.constReal (c0.intValue : ℚ)
        else c0
      let c1h :=
        if c0h.kindOf = .CONSTANT ∧ c0h.sortOf = .fp64 ∧
            c1.kindOf = .CONST_INTEGER ∧ c1.sortOf = .int then
          CTerm.constReal (c1.intValue : ℚ)
        else c1
      [c0h, c1h]
  | cs => cs

/-- The quantifier branch's `mk_var` (src/core.py, lines 568-575): only the
type tags "Int" and "FP" are supported. -/
def mk_quantifier_var (name : String) (type_str : String) :
    Except String (String × CSort) :=
  if type_str = "Int" then .ok (name, .int)
  else if type_str = "FP" then .ok (name, .fp64)
  else .error "port me"

/-- One binder of a quantifier's binder list: Python unpacks it as exactly a
(name, type-tag) pair of atoms. -/
def parse_var_spec : SExpr → Except String (String × CSort)
  | .list [.atom n, .atom t] => mk_quantifier_var n t
  | _ => .error "TypeError: bad quantifier binder"

/-- `Solver.sexpr_to_term` (src/core.py, lines 541-611).  The Lean model
threads explicit recursion fuel (first argument); Python's recursion depth is
bounded by the nesting depth of the s-expression, so any fuel exceeding that
depth gives the source function's behavior, and every theorem below supplies
such fuel.  Resolution order as in the source: a registered zero-arity
constant, a registered function applied to compiled children, the
`SUPPORTED_KINDS` operator table (with the quantifier sub-branch and the
equality child coercion), and finally literal conversion. -/
def sexpr_to_term (all_functions : List FnDecl) :
    ℕ → SExpr → List (String × CSort) → Except String CTerm
  | 0, _, _ => .error "RecursionError"
  | Nat.succ fuel, sexpr, varList =>
    match sexpr with
    | .atom s =>
        match all_functions.find? (fun f => f.name == s) with
        | some f => .ok f.cvc5_const
        | none =>
            match _convert_literal_to_term all_functions s varList none with
            | .ok t => .ok t
            | .error _ => .error ("Couldn't understand <" ++ s ++ ">")
    | .list [] => .error "IndexError"
    | .list (hd :: tl) =>
        match hd with
        | .atom hs =>
            match all_functions.find? (fun f => f.name == hs) with
            | some f => do
                let children ← tl.mapM
                  (fun c => sexpr_to_term all_functions fuel c varList)
                pure (.applyUF f.cvc5_const children)
            | none =>
                match SUPPORTED_KINDS (pyLower hs) with
                | none => .error "KeyError"
                | some k =>
                    if k = .FORALL ∨ k = .EXISTS then
                      match tl with
                      | specs :: body :: _ =>
                          match specs with
                          | .list vspecs => do
                              let new_variables ← vspecs.mapM parse_var_spec
                              let b ← sexpr_to_term all_functions fuel
                                        body (varList ++ new_variables)
                              pure (.quant k new_variables b)
                          | .atom _ => .error "TypeError: binder list expected"
                      | _ => .error "IndexError"
                    else do
                      let children ← tl.mapM
                        (fun c => sexpr_to_term all_functions fuel c varList)
                      let children :=
                        if k = .EQUAL then coerce_equal_children children
                        else children
                      pure (.node k children)
        | .list _ => .error "TypeError: unhashable list key"

/-- Counterexample to C7: compiling the repository's own test input
"(= age 72)" (src/core.py, line 1078) against the zero-arity fp64 constant
`age`, the integer literal is replaced by `mkReal(72.0)` — a Real-sorted
term, not a floating-point term — so the resulting equality still has two
children of different sorts (Real vs the 64-bit floating-point sort).
(Fuel 2 covers the input's nesting depth; any larger fuel gives the same
result.) -/
theorem C7_equality_coercion_counterexample :
    sexpr_to_term [⟨"age", [], .fp64⟩] 2
        (.list [.atom "=", .atom "age", .atom "72"]) [] =
      .ok (.node .EQUAL [.fnConst "age" [] .fp64, .constReal 72]) ∧
    (CTerm.constReal 72).sortOf = CSort.real ∧
    (CTerm.constReal 72).sortOf ≠ (CTerm.fnConst "age" [] .fp64).sortOf := by
  refine ⟨?_, rfl, by simp [CTerm.sortOf]⟩
  rfl

/-- C7 amended: when the term compiler builds an equality whose one child is
an integer literal and whose other child is a zero-arity constant of the
64-bit floating-point sort, it replaces the integer literal (on either side)
with a Real-sorted rational constant of the same numeric value before
constructing the equality; the two children of the resulting equality
therefore still have different sorts (Real versus FP64). -/
theorem C7_equality_coercion :
    (∀ extra : ℕ,
      sexpr_to_term [⟨"age", [], .fp64⟩] (extra + 2)
          (.list [.atom "=", .atom "age", .atom "72"]) [] =
        .ok (.node .EQUAL [.fnConst "age" [] .fp64, .constReal 72])) ∧
    (∀ (name : String) (n : ℤ),
      coerce_equal_children [.fnConst name [] .fp64, .constInt n] =
        [.fnConst name [] .fp64, .constReal (n : ℚ)]) ∧
    (∀ (name : String) (n : ℤ),
      coerce_equal_children [.constInt n, .fnConst name [] .fp64] =
        [.constReal (n : ℚ), .fnConst name [] .fp64]) ∧
    (∀ n : ℤ, (CTerm.constReal (n : ℚ)).sortOf = CSort.real) ∧
    (∀ name : String, (CTerm.fnConst name [] CSort.fp64).sortOf = .fp64) ∧
    CSort.real ≠ CSort.fp64 := by
  refine ⟨fun extra => rfl, ?_, ?_, fun _ => rfl, fun _ => rfl, by simp⟩ <;>
    · intro name n
      simp [coerce_equal_children, CTerm.kindOf, CTerm.sortOf, CTerm.intValue]

/-- The parser's `context` stack: a Python list of lists of already parsed
expressions; the last element is the list currently being extended. -/
abbrev PCtx := List (List SExpr)

/-- Python's `context[-1].append(x)`: appends into the last frame, or raises
IndexError when the stack is empty. -/
def appendTop : PCtx → SExpr → Except String PCtx
  | [], _ => .error "IndexError"
  | [top], x => .ok [top ++ [x]]
  | frame :: rest, x => do
      let rest' ← appendTop rest x
      pure (frame :: rest')

/-- Python's `x = context.pop(); context[-1].append(x)` (src/utils.py,
lines 291-292): closes the last frame into a list appended to its parent.
Raises IndexError when fewer than two frames remain (`pop` on an empty list,
or `context[-1]` right after the pop emptied the stack). -/
def popAndAppend : PCtx → Except String PCtx
  | [] => .error "IndexError"
  | [_] => .error "IndexError"
  | [a, b] => .ok [a ++ [SExpr.list b]]
  | frame :: rest => do
      let rest' ← popAndAppend rest
      pure (frame :: rest')

/-- The scanner's whitespace set (src/utils.py, line 253). -/
def isWs (c : Char) : Bool :=
  c == ' ' || c == '\t' || c == '\n'

/-- Whitespace or the closing parenthesis: the characters ending an ordinary
token (src/utils.py, line 279). -/
def isWsOrClose (c : Char) : Bool :=
  isWs c || c == ')'

/-- Python `str.strip()` on the characters this scanner produces. -/
def pyStrip (cs : List Char) : List Char :=
  ((cs.dropWhile isWs).reverse.dropWhile isWs).reverse

/-- The quoted-string branch of `scan_to_end_of_token` (src/utils.py, lines
254-276): collect characters until the closing quote, turning a backslash
followed by a quote into a quote and keeping any other backslash pair
verbatim; `none` models the unterminated-string early return. -/
def scanQuoted (tok : List Char) : List Char → Option (List Char × List Char)
  | [] => none
  | '"' :: rest => some (tok, rest)
  | '\\' :: c :: rest =>
      if c = '"' then scanQuoted (tok ++ ['"']) rest
      else scanQuoted (tok ++ ['\\', c]) rest
  | c :: rest => scanQuoted (tok ++ [c]) rest

/-- The `while token[0] == "("` loop: each leading open parenthesis pushes a
fresh frame. -/
def stripLeadingOpens : List Char → PCtx → List Char × PCtx
  | '(' :: rest, ctx => stripLeadingOpens rest (ctx ++ [[]])
  | tok, ctx => (tok, ctx)

/-- The `while token[0] == ")"` loop: each leading close parenthesis pops a
frame into its parent (possibly raising IndexError). -/
def stripLeadingCloses : List Char → PCtx → Except String (List Char × PCtx)
  | ')' :: rest, ctx => do
      let ctx' ← popAndAppend ctx
      stripLeadingCloses rest ctx'
  | tok, ctx => .ok (tok, ctx)

/-- Number of closing parentheses the `while token[-1] == ")"` loop strips
from the end of the token (each one also steps `idx` back, so those
characters are rescanned later). -/
def countTrailingCloses (tok : List Char) : ℕ :=
  (tok.reverse.takeWhile (· == ')')).length

/-- One call of `scan_to_end_of_token` (src/utils.py, lines 247-307) on the
remaining input `cs` with stack `ctx`: returns the remaining input after the
call together with the updated stack (`.error` models an uncaught
IndexError).  The index arithmetic of the source is rephrased over suffixes:
`idx -= 1` steps in the trailing-parenthesis loop leave the stripped closing
parentheses on the remaining input to be rescanned. -/
def scan_to_end_of_token (cs : List Char) (ctx : PCtx) :
    Except String (List Char × PCtx) :=
  match cs with
  | [] => .ok ([], ctx)
  | '"' :: rest =>
      match scanQuoted [] rest with
      | none => .ok ([], ctx)
      | some (tok, rest') =>
          if tok.isEmpty then .ok (rest', ctx)
          else do
            let ctx' ← appendTop ctx (.atom (String.mk tok))
            pure (rest', ctx')
  | _ =>
      let tokRaw := cs.takeWhile (fun c => !(isWsOrClose c))
      let rest0 := cs.drop tokRaw.length
      match rest0 with
      | [] => do
          let ctx' ← appendTop ctx (.atom (String.mk cs))
          pure (([] : List Char), ctx')
      | t :: rest =>
          let token := tokRaw ++ [t]
          let p := stripLeadingOpens token ctx
          match stripLeadingCloses p.1 p.2 with
          | .error e => .error e
          | .ok (token2, ctx2) =>
              let k := countTrailingCloses token2
              let token3 := pyStrip (token2.take (token2.length - k))
              let remaining := List.replicate k ')' ++ rest
              if token3.isEmpty then .ok (remaining, ctx2)
              else do
                let ctx3 ← appendTop ctx2 (.atom (String.mk token3))
                pure (remaining, ctx3)

/-- The `while idx < len(sexpr)` driver loop of `parse_sexpr_from_str`.  The
fuel (first argument) models nothing in the source: each scan call consumes
at least one character of the remaining input (net of the rescanned trailing
parentheses), so the wrapper's `length + 1` fuel never runs out. -/
def parse_loop : ℕ → List Char → PCtx → Except String PCtx
  | 0, _, _ => .error "RecursionError"
  | Nat.succ fuel, cs, ctx =>
      if cs.isEmpty then .ok ctx
      else do
        let p ← scan_to_end_of_token cs ctx
        parse_loop fuel p.1 p.2

/-- `parse_sexpr_from_str` (src/utils.py, lines 217-319): strip the input,
run the scanner loop from the stack `[[]]`, then return `context[0][0]`,
with the final IndexError caught and turned into `None` ("context is
mangled").  `.ok (some e)` is a parse result, `.ok none` is Python `None`,
and `.error` is an exception the source does not catch. -/
def parse_sexpr_from_str (sexpr : String) : Except String (Option SExpr) := do
  let cs := pyStrip sexpr.toList
  let ctx ← parse_loop (cs.length + 1) cs [[]]
  match ctx with
  | (x :: _) :: _ => pure (some x)
  | _ => pure none

/-- Counterexample to C5: the claim says every malformed input — including a
surplus closing parenthesis — yields an empty/failure result (None) rather
than an unhandled exception; but on the input ")" the token loop pops the
only stack frame and `context[-1]` raises an IndexError that nothing
catches. -/
theorem C5_parser_counterexample :
    parse_sexpr_from_str ")" = .error "IndexError" := rfl

/-- C5 amended: the well-formed example input still parses to the claimed
nested list and an unterminated quoted string still yields the None failure
result; but the parser is not total: an input whose text runs out before any
terminator comes back as a raw atom (so unbalanced open parentheses yield a
garbage atom, not None), and a surplus closing parenthesis — here on
"(a))" — raises an uncaught IndexError instead of returning None. -/
theorem C5_parser_behavior :
    parse_sexpr_from_str "(not (= (heart-rate 12815) 55.0))" =
      .ok (some (.list [.atom "not",
        .list [.atom "=",
          .list [.atom "heart-rate", .atom "12815"],
          .atom "55.0"]])) ∧
    parse_sexpr_from_str "\"abc" = .ok none ∧
    parse_sexpr_from_str "(a" = .ok (some (.atom "(a")) ∧
    parse_sexpr_from_str "(a))" = .error "IndexError" :=
  ⟨rfl, rfl, rfl, rfl⟩

/-- A semantic value a Fact argument can take: the knowledge base uses
integer times ("epochal days") and string codes. -/
inductive CVal
  | intV (n : ℤ)
  | strV (s : String)
deriving DecidableEq, Repr

/-- A value of the 64-bit floating-point codomain, as needed to read the CWA
rules: the NaN sentinel or an ordinary number (kept as its rational value). -/
inductive FPVal
  | nan
  | num (q : ℚ)
deriving DecidableEq, Repr

/-- The result slot of a Fact: the knowledge base stores plain numbers,
strings, or prebuilt TFU constants. -/
inductive FactResult
  | intR (n : ℤ)
  | fpR (q : ℚ)
  | strR (s : String)
  | tfuR (t : TFU)
deriving DecidableEq, Repr

/-- `Fact` (src/core.py, lines 358-373): a reference to its Function (by the
Function's unique name), a result value and the argument values. -/
structure Fact where
  func : String
  result : FactResult
  args : List CVal
deriving DecidableEq, Repr

/-- The per-fact match test inside the CWA body, read at a valuation `xs` of
the formal arguments: the conjunction over the zipped (formal argument, fact
argument) pairs of equalities (src/core.py, lines 216-220; an empty
conjunction is `mkBoolean(True)` by `Solver.and_`). -/
def factArgsMatch (xs : List CVal) (factArgs : List CVal) : Bool :=
  (xs.zip factArgs).all (fun p => p.1 == p.2)

/-- One generated closed-world rule of an ordinary Function, recorded
semantically: the emitted axiom is `forall formal_args,
equal(cond, equal_fp(F(formal_args), mkNaN()))` (src/core.py, lines
224-228), and `cond` is the axiom's left-hand side evaluated at a valuation
of the formal arguments. -/
structure CWARule where
  cond : List CVal → Bool

instance : Inhabited CWARule := ⟨⟨fun _ => false⟩⟩

/-- `Solver.equal_fp` (src/core.py, lines 712-716) builds
`Kind.FLOATINGPOINT_EQ`, SMT-LIB `fp.eq`: IEEE-754 equality, which is false
whenever either operand is NaN and otherwise compares the numeric values. -/
def fpEq : FPVal → FPVal → Bool
  | .num a, .num b => a == b
  | _, _ => false

/-- Satisfaction of a generated CWA rule by an interpretation `g` of the
function over argument tuples: for every tuple, the Boolean equality the
axiom's body asserts — the condition equals `fp.eq` of the function's value
there with the NaN constant (`Kind.FLOATINGPOINT_EQ`, not object
equality). -/
def CWARule.holds (r : CWARule) (g : List CVal → FPVal) : Prop :=
  ∀ xs : List CVal, r.cond xs = fpEq (g xs) .nan

/-- `Function.generate_CWA_axioms_for_others` (src/core.py, lines 182-232):
the "D" relation is skipped; a Function with arguments gets exactly one
universally quantified rule whose condition is the conjunction of the
negated per-fact matches when the relevant-fact list is nonempty, and the
constant `mkBoolean(False)` when it is empty (line 223); a zero-argument
Function gets none. -/
def generate_CWA_axioms_for_others (f : FnDecl) (facts : List Fact) :
    List CWARule :=
  if f.name = "D" then []
  else
    let relevant_facts := facts.filter (fun fact => fact.func == f.name)
    if f.args.length > 0 then
      if relevant_facts.length > 0 then
        [⟨fun xs => relevant_facts.all (fun fact => !(factArgsMatch xs fact.args))⟩]
      else
        [⟨fun _ => false⟩]
    else []

/-- The condition the claim says the axiom asserts, written from the claim's
words: the argument tuple matches no known fact's argument tuple. -/
def matchesNoFact (relevant_facts : List Fact) (xs : List CVal) : Bool :=
  relevant_facts.all (fun fact => !(factArgsMatch xs fact.args))

/-- The ordinary time-series declaration used for concrete CWA instances. -/
def hrDecl : FnDecl := ⟨"heart-rate", [("time", CSort.int)], CSort.fp64⟩

/-- An interpretation that is nowhere-NaN. -/
def gNonNaN : List CVal → FPVal := fun _ => .num 1

/-- A supported heart-rate fact (55.0 beats/sec at epochal day 12815). -/
def hrFact : Fact := ⟨"heart-rate", .fpR 55, [CVal.intV 12815]⟩

/-- The closed-world interpretation of `heart-rate` for `hrFact`, as the
claim intends it: NaN away from the supported tuple. -/
def gHeartRate : List CVal → FPVal :=
  fun xs => if matchesNoFact [hrFact] xs then .nan else .num 55

/-- Counterexample to C3: the axiom compares the value with NaN by
`Kind.FLOATINGPOINT_EQ` (IEEE `fp.eq`), which no value — not even NaN
itself — satisfies, so it never forces a value to the NaN sentinel.  With
an empty fact list the code's `mkBoolean(False)` condition (line 223) makes
the rule a tautology, satisfied by a nowhere-NaN interpretation at the
unsupported tuple (0); and with one supported fact the rule is violated
even by the everywhere-NaN interpretation at the unsupported tuple, so it
cannot force anything. -/
theorem C3_cwa_counterexample :
    (generate_CWA_axioms_for_others hrDecl []).length = 1 ∧
    (generate_CWA_axioms_for_others hrDecl []).headI.holds gNonNaN ∧
    matchesNoFact [] [CVal.intV 0] = true ∧
    gNonNaN [CVal.intV 0] ≠ FPVal.nan ∧
    ¬ (generate_CWA_axioms_for_others hrDecl [hrFact]).headI.holds
        (fun _ => FPVal.nan) := by
  refine ⟨rfl, fun xs => rfl, rfl, by simp [gNonNaN], fun h => ?_⟩
  exact absurd (h [CVal.intV 0]) (by decide)

/-- C3 (amended): for an ordinary Function with at least one declared
argument and a nonempty relevant-fact list, `generate_CWA_axioms_for_others`
emits exactly one universally quantified rule whose condition is exactly
"no known fact's argument tuple matches"; a zero-argument Function gets no
rule; when the relevant fact list is empty the emitted condition is the
constant `mkBoolean(False)` (line 223).  But the axiom equates that
condition with `fp.eq(F(args), NaN)` under `Kind.FLOATINGPOINT_EQ`, and
IEEE `fp.eq` against NaN is false for every value, so the axiom never
forces a value to NaN: a rule is satisfied exactly when its condition is
false everywhere — a tautology for the empty-fact rule, and (for the
nonempty-fact rule) violated by every interpretation at any argument tuple
matching no fact. -/
theorem C3_cwa_for_others :
    (∀ (f : FnDecl) (facts : List Fact),
      f.name ≠ "D" → f.args ≠ [] →
      facts.filter (fun fact => fact.func == f.name) ≠ [] →
      generate_CWA_axioms_for_others f facts =
        [⟨matchesNoFact (facts.filter (fun fact => fact.func == f.name))⟩]) ∧
    (∀ v : FPVal, fpEq v .nan = false) ∧
    (∀ (r : CWARule) (g : List CVal → FPVal),
      r.holds g ↔ ∀ xs, r.cond xs = false) ∧
    (∀ (relevant_facts : List Fact) (g : List CVal → FPVal) (xs : List CVal),
      matchesNoFact relevant_facts xs = true →
      ¬ CWARule.holds ⟨matchesNoFact relevant_facts⟩ g) ∧
    (∀ (f : FnDecl) (facts : List Fact),
      f.args = [] → generate_CWA_axioms_for_others f facts = []) ∧
    (∀ (f : FnDecl) (facts : List Fact) (g : List CVal → FPVal),
      f.name ≠ "D" → f.args ≠ [] →
      facts.filter (fun fact => fact.func == f.name) = [] →
      generate_CWA_axioms_for_others f facts = [⟨fun _ => false⟩] ∧
      CWARule.holds ⟨fun _ => false⟩ g) := by
  have hfpe : ∀ v : FPVal, fpEq v .nan = false := by
    intro v; cases v <;> rfl
  refine ⟨?_, hfpe, ?_, ?_, ?_, ?_⟩
  · intro f facts h1 h2 h3
    have hlen : 0 < f.args.length := List.length_pos.mpr h2
    have hrel : 0 < (facts.filter (fun fact => fact.func == f.name)).length :=
      List.length_pos.mpr h3
    simp only [generate_CWA_axioms_for_others, if_neg h1, if_pos hlen,
      if_pos hrel]
    rfl
  · intro r g
    constructor
    · intro h xs
      rw [h xs, hfpe]
    · intro h xs
      rw [h xs, hfpe]
  · intro relevant_facts g xs hNo hHolds
    have hx := hHolds xs
    rw [hfpe] at hx
    exact absurd (hNo.symm.trans hx) (by decide)
  · intro f facts h
    by_cases hD : f.name = "D"
    · simp [generate_CWA_axioms_for_others, hD]
    · simp [generate_CWA_axioms_for_others, hD, h]
  · intro f facts g h1 h2 h3
    have hlen : 0 < f.args.length := List.length_pos.mpr h2
    have hrel : ¬ 0 < (facts.filter (fun fact => fact.func == f.name)).length := by
      simp [h3]
    refine ⟨?_, fun xs => (hfpe (g xs)).symm⟩
    simp only [generate_CWA_axioms_for_others, if_neg h1, if_pos hlen,
      if_neg hrel]

/-- Witness for C3: the amended conjuncts applied at the concrete
heart-rate declaration — with one supported fact exactly one rule is
generated, its condition the mismatch condition, and even the intended
closed-world interpretation (NaN away from the supported tuple) violates
it; with no facts the rule has the constant-false condition and holds for
the nowhere-NaN interpretation; a zero-argument declaration ("age") yields
no rule. -/
theorem C3_cwa_for_others_witness :
    generate_CWA_axioms_for_others hrDecl [hrFact] =
      [⟨matchesNoFact [hrFact]⟩] ∧
    ¬ CWARule.holds ⟨matchesNoFact [hrFact]⟩ gHeartRate ∧
    generate_CWA_axioms_for_others hrDecl [] = [⟨fun _ => false⟩] ∧
    CWARule.holds ⟨fun _ => false⟩ gNonNaN ∧
    generate_CWA_axioms_for_others ⟨"age", [], CSort.fp64⟩ [] = [] :=
  ⟨C3_cwa_for_others.1 hrDecl [hrFact] (by decide) (by decide) (by decide),
   C3_cwa_for_others.2.2.2.1 [hrFact] gHeartRate [CVal.intV 0] (by decide),
   (C3_cwa_for_others.2.2.2.2.2 hrDecl [] gNonNaN (by decide) (by decide)
     rfl).1,
   (C3_cwa_for_others.2.2.2.2.2 hrDecl [] gNonNaN (by decide) (by decide)
     rfl).2,
   C3_cwa_for_others.2.2.2.2.1 ⟨"age", [], CSort.fp64⟩ [] rfl⟩

/-- `fact.args[0]` of a diagnosis fact: the ICD code. -/
def Fact.arg0 (f : Fact) : CVal := f.args.getD 0 (.strV "")

/-- `fact.args[1]` of a diagnosis fact: the observation time (diagnosis
facts store an integer epochal day there). -/
def Fact.timeArg (f : Fact) : ℤ :=
  match f.args.getD 1 (.intV 0) with
  | .intV n => n
  | .strV _ => 0

/-- A half-open or right-unbounded time range as `range2disjunct` renders it
(src/core.py, lines 320-325): `(start, some stop)` is `start ≤ time ∧ time <
stop`, `(start, none)` is `start ≤ time`. -/
def rangeContains (r : ℤ × Option ℤ) (time : ℤ) : Bool :=
  match r.2 with
  | some stop => decide (r.1 ≤ time) && decide (time < stop)
  | none => decide (r.1 ≤ time)

/-- One generated diagnosis rule, recorded semantically: the emitted axiom is
`forall (ICD, time), cond(time) ⇔ (D(ICD, time) = val)`.  The condition the
source builds mentions only the quantified time variable, never the
quantified ICD variable; the instantiation trigger (INST_PATTERN) on the
first rule is a solver hint with no logical content and is not modelled. -/
structure DiagRule where
  cond : ℤ → Bool
  val : TFU

/-- Satisfaction of a generated diagnosis rule by an interpretation `d` of
the diagnosis function over time (at the observed ICD; since the condition
never mentions the ICD, this is the rule instantiated there). -/
def DiagRule.holds (r : DiagRule) (d : ℤ → TFU) : Prop :=
  ∀ time : ℤ, r.cond time = true ↔ d time = r.val

/-- `time2fact` (src/core.py, line 299): the Python dict comprehension keyed
by observation time; on duplicate times the last fact wins. -/
def time2fact (these_facts : List Fact) (t : ℤ) : Option Fact :=
  these_facts.reverse.find? (fun f => f.timeArg == t)

/-- The `for i in range(1, len(ordered_times))` loop (src/core.py, lines
304-312) over the consecutive pairs of ordered observation times: a pair
whose earlier fact recorded tfu_true joins the true disjuncts, tfu_false the
false disjuncts, and an explicitly unknown recorded result raises. -/
def collectDisjuncts (time2f : ℤ → Option Fact) :
    List (ℤ × ℤ) → Except String (List (ℤ × Option ℤ) × List (ℤ × Option ℤ))
  | [] => .ok ([], [])
  | (t1, t2) :: rest =>
      match time2f t1 with
      | none => .error "KeyError"
      | some f =>
          match f.result with
          | .tfuR .tfu_true =>
              (fun p => ((t1, some t2) :: p.1, p.2)) <$>
                collectDisjuncts time2f rest
          | .tfuR .tfu_false =>
              (fun p => (p.1, (t1, some t2) :: p.2)) <$>
                collectDisjuncts time2f rest
          | _ => .error "explicit unknown D()s are not currently supported"

/-- The per-ICD body of the `for observed_ICD in observed_icds` loop of
`InterpolatableFunction.generate_CWA_axioms_for_diagnosis` (src/core.py,
lines 290-355): sort the observed times, build the
before-the-first range, the half-open ranges between consecutive
observations labelled by the earlier observation's result, and the unbounded
range from the last observation labelled by its result; emit three
universally quantified rules (time before the minimum ⇔ the unknown
constant; membership of the true-range union ⇔ tfu_true; membership of the
false-range union ⇔ tfu_false).  Python's `sorted` over the set of times is
modelled by `insertionSort` over the deduplicated list, `min`/`max` over the
set by folds. -/
def generate_diag_rules_for_icd (relevant_facts : List Fact) (icd : CVal) :
    Except String (List DiagRule) :=
  let these_facts := relevant_facts.filter (fun fact => fact.arg0 == icd)
  let these_times := (these_facts.map Fact.timeArg).dedup
  match these_times with
  | [] => .error "ValueError: min of an empty set"
  | t0 :: ts =>
      let min_time := ts.foldl min t0
      let max_time := ts.foldl max t0
      let ordered_times := (t0 :: ts).insertionSort (· ≤ ·)
      let pairs := ordered_times.zip ordered_times.tail
      match collectDisjuncts (time2fact these_facts) pairs with
      | .error e => .error e
      | .ok (tds, fds) =>
          match time2fact these_facts max_time with
          | none => .error "KeyError"
          | some last_fact =>
              let p :=
              if last_fact.result == .tfuR .tfu_true then
                (tds ++ [(max_time, (none : Option ℤ))], fds)
              else (tds, fds ++ [(max_time, (none : Option ℤ))])
              .ok [⟨fun time => decide (time < min_time),
                      TFU.tfu_true_or_false⟩,
                   ⟨fun time => p.1.any (fun r => rangeContains r time),
                      TFU.tfu_true⟩,
                   ⟨fun time => p.2.any (fun r => rangeContains r time),
                      TFU.tfu_false⟩]

/-- The `for observed_ICD in observed_icds` loop: the rules of each observed
ICD are appended to the results in turn; a raised exception aborts the whole
generation. -/
def generate_diag_rules_loop (relevant_facts : List Fact) :
    List CVal → Except String (List DiagRule)
  | [] => .ok []
  | icd :: rest => do
      let rs ← generate_diag_rules_for_icd relevant_facts icd
      let more ← generate_diag_rules_loop relevant_facts rest
      pure (rs ++ more)

/-- `InterpolatableFunction.generate_CWA_axioms_for_diagnosis` (src/core.py,
lines 268-356): filter the facts of this relation, collect the observed ICD
codes (a Python set comprehension, modelled by `dedup`) and run the per-ICD
loop. -/
def generate_CWA_axioms_for_diagnosis (f : FnDecl) (facts : List Fact) :
    Except String (List DiagRule) :=
  let relevant_facts := facts.filter (fun fact => fact.func == f.name)
  generate_diag_rules_loop relevant_facts
    ((relevant_facts.map Fact.arg0).dedup)

/-- The diagnosis relation declaration (src/core.py, lines 830-835). -/
def dDecl : FnDecl := ⟨"D", [("ICD", CSort.str), ("time", CSort.int)], CSort.tfu⟩

/-- The three-observation knowledge base of the claim: the diagnosis is
recorded true at `t1`, false at `t2`, true at `t3` (src/core.py, lines
849-854 with the three diagnosis dates). -/
def diagFacts (t1 t2 t3 : ℤ) : List Fact :=
  [⟨"D", .tfuR .tfu_true, [.strV "E11", .intV t1]⟩,
   ⟨"D", .tfuR .tfu_false, [.strV "E11", .intV t2]⟩,
   ⟨"D", .tfuR .tfu_true, [.strV "E11", .intV t3]⟩]

/-- The value profile the claim states: unknown strictly before t1, true on
[t1, t2), false on [t2, t3), true from t3 on. -/
def claimedDiagProfile (t1 t2 t3 : ℤ) (t : ℤ) : TFU :=
  if t < t1 then .tfu_true_or_false
  else if t < t2 then .tfu_true
  else if t < t3 then .tfu_false
  else .tfu_true

/-- C2: for the diagnosis knowledge base {true at t1, false at t2, true at
t3} with t1 < t2 < t3, the rules generated by
`generate_CWA_axioms_for_diagnosis` force any interpretation of the
diagnosis function satisfying them to take exactly the claimed values:
the tri-valued unknown constant strictly before t1, tfu_true on [t1, t2),
tfu_false on [t2, t3), and tfu_true from t3 on. -/
theorem C2_diagnosis_interpolation :
    ∀ (t1 t2 t3 : ℤ), t1 < t2 → t2 < t3 →
    ∀ (rules : List DiagRule) (d : ℤ → TFU),
      generate_CWA_axioms_for_diagnosis dDecl (diagFacts t1 t2 t3) = .ok rules →
      (∀ r ∈ rules, r.holds d) →
      ∀ t : ℤ, d t = claimedDiagProfile t1 t2 t3 t := by
  intro t1 t2 t3 h12 h23 rules d hgen hsat t
  have h13 : t1 < t3 := h12.trans h23
  have hne21 : t2 ≠ t1 := (ne_of_lt h12).symm
  have hne31 : t3 ≠ t1 := (ne_of_lt h13).symm
  have hne32 : t3 ≠ t2 := (ne_of_lt h23).symm
  have hne12 : t1 ≠ t2 := ne_of_lt h12
  have hne13 : t1 ≠ t3 := ne_of_lt h13
  have hne23 : t2 ≠ t3 := ne_of_lt h23
  have hminA : min t1 t2 = t1 := min_eq_left h12.le
  have hminB : min t1 t3 = t1 := min_eq_left h13.le
  have hmaxA : max t1 t2 = t2 := max_eq_right h12.le
  have hmaxB : max t2 t3 = t3 := max_eq_right h23.le
  have hded : ([t1, t2, t3] : List ℤ).dedup = [t1, t2, t3] := by
    rw [List.dedup_cons_of_not_mem (by simp [hne12, hne13]),
        List.dedup_cons_of_not_mem (by simp [hne23]),
        List.dedup_cons_of_not_mem (by simp), List.dedup_nil]
  have b21 : ((t2 == t1) : Bool) = false := by simp [hne21]
  have b31 : ((t3 == t1) : Bool) = false := by simp [hne31]
  have b32 : ((t3 == t2) : Bool) = false := by simp [hne32]
  have hicd : generate_diag_rules_for_icd (diagFacts t1 t2 t3)
        (CVal.strV "E11") =
      .ok [⟨fun time => decide (time < t1), TFU.tfu_true_or_false⟩,
           ⟨fun time => [(t1, some t2), (t3, (none : Option ℤ))].any
              (fun r => rangeContains r time), TFU.tfu_true⟩,
           ⟨fun time => [(t2, some t3)].any
              (fun r => rangeContains r time), TFU.tfu_false⟩] := by
    simp [generate_diag_rules_for_icd, diagFacts, Fact.arg0, Fact.timeArg,
      hded, List.insertionSort, List.orderedInsert, h12.le, h23.le, h13.le,
      collectDisjuncts, time2fact, List.find?, b21, b31, b32,
      hminA, hminB, hmaxA, hmaxB, Except.map]
  have hcomp : generate_CWA_axioms_for_diagnosis dDecl (diagFacts t1 t2 t3) =
      .ok [⟨fun time => decide (time < t1), TFU.tfu_true_or_false⟩,
           ⟨fun time => [(t1, some t2), (t3, (none : Option ℤ))].any
              (fun r => rangeContains r time), TFU.tfu_true⟩,
           ⟨fun time => [(t2, some t3)].any
              (fun r => rangeContains r time), TFU.tfu_false⟩] := by
    have hfilterD : (diagFacts t1 t2 t3).filter
        (fun fact => fact.func == dDecl.name) = diagFacts t1 t2 t3 := rfl
    have hicds : ((diagFacts t1 t2 t3).map Fact.arg0).dedup =
        [CVal.strV "E11"] := rfl
    simp [generate_CWA_axioms_for_diagnosis, generate_diag_rules_loop,
      hfilterD, hicds, hicd, Fact.arg0]
    rfl
  rw [hcomp] at hgen
  have hr : rules = _ := (Except.ok.inj hgen).symm
  subst hr
  have H1 := hsat ⟨fun time => decide (time < t1), TFU.tfu_true_or_false⟩
    (by simp)
  have H2 := hsat ⟨fun time => [(t1, some t2), (t3, (none : Option ℤ))].any
    (fun r => rangeContains r time), TFU.tfu_true⟩ (by simp)
  have H3 := hsat ⟨fun time => [(t2, some t3)].any
    (fun r => rangeContains r time), TFU.tfu_false⟩ (by simp)
  rcases lt_or_le t t1 with h | h
  · have hv := (H1 t).mp (by simpa using h)
    rw [hv]
    simp [claimedDiagProfile, h]
  · rcases lt_or_le t t2 with h2 | h2
    · have hv := (H2 t).mp (by simp [rangeContains]; omega)
      rw [hv]
      simp [claimedDiagProfile, not_lt.mpr h, h2]
    · rcases lt_or_le t t3 with h3 | h3
      · have hv := (H3 t).mp (by simp [rangeContains]; omega)
        rw [hv]
        simp [claimedDiagProfile, not_lt.mpr h, not_lt.mpr h2, h3]
      · have hv := (H2 t).mp (by simp [rangeContains]; omega)
        rw [hv]
        simp [claimedDiagProfile, not_lt.mpr h, not_lt.mpr h2, not_lt.mpr h3]

/-- The claimed interpolation profile at the repository's three diagnosis
dates 2006-02-01, 2006-03-01, 2006-04-01 (epochal days 13180, 13208,
13239). -/
def dModel : ℤ → TFU := claimedDiagProfile 13180 13208 13239

/-- Witness for C2: at the concrete diagnosis dates the generated rules are
satisfied by the claimed profile itself, and the theorem then pins the
interpretation's values the day before the first observation, at each
observation, and after the last one. -/
theorem C2_diagnosis_interpolation_witness :
    dModel 13179 = TFU.tfu_true_or_false ∧
    dModel 13180 = TFU.tfu_true ∧
    dModel 13208 = TFU.tfu_false ∧
    dModel 13239 = TFU.tfu_true := by
  have hgen : generate_CWA_axioms_for_diagnosis dDecl
        (diagFacts 13180 13208 13239) =
      .ok [⟨fun time => decide (time < 13180), TFU.tfu_true_or_false⟩,
           ⟨fun time => [((13180 : ℤ), some (13208 : ℤ)),
              (13239, (none : Option ℤ))].any
              (fun r => rangeContains r time), TFU.tfu_true⟩,
           ⟨fun time => [((13208 : ℤ), some (13239 : ℤ))].any
              (fun r => rangeContains r time), TFU.tfu_false⟩] := rfl
  have hsat : ∀ r ∈ [(⟨fun time => decide (time < 13180),
          TFU.tfu_true_or_false⟩ : DiagRule),
        ⟨fun time => [((13180 : ℤ), some (13208 : ℤ)),
            (13239, (none : Option ℤ))].any
            (fun r => rangeContains r time), TFU.tfu_true⟩,
        ⟨fun time => [((13208 : ℤ), some (13239 : ℤ))].any
            (fun r => rangeContains r time), TFU.tfu_false⟩],
      r.holds dModel := by
    intro r hr
    simp only [List.mem_cons, List.not_mem_nil, or_false] at hr
    rcases hr with rfl | rfl | rfl <;>
      · intro time
        simp only [dModel, claimedDiagProfile]
        split_ifs with hA hB hC <;> simp [rangeContains] <;> omega
  have happ := C2_diagnosis_interpolation 13180 13208 13239 (by decide)
    (by decide) _ dModel hgen hsat
  exact ⟨(happ 13179).trans (by decide), (happ 13180).trans (by decide),
    (happ 13208).trans (by decide), (happ 13239).trans (by decide)⟩

/-- Helper for `ones_and_zeros_to_int`: Horner evaluation from the
least-significant (last) character, structurally on the reversed list. -/
def ones_and_zeros_to_int_rev : List Char → ℕ
  | [] => 0
  | c :: rest => ones_and_zeros_to_int_rev rest * 2 + (if c = '1' then 1 else 0)

/-- `ones_and_zeros_to_int` (src/utils.py, lines 63-73): `f(s) = f(s[:-1]) *
2 + (1 if s[-1] == "1" else 0)` with `f("") = 0`, phrased structurally on
the reversed character list. -/
def ones_and_zeros_to_int (s : List Char) : ℕ :=
  ones_and_zeros_to_int_rev s.reverse

/-- `_split_into_chunks` (src/utils.py, lines 54-58), with explicit recursion
fuel: a string fitting one chunk is left-padded; otherwise the last
`chunk_size` characters are split off and the front recursed on.  The
recursion depth is bounded by the string length, so the wrapper's
`length + 1` fuel never runs out. -/
def _split_into_chunks : ℕ → List Char → ℕ → Char → List (List Char)
  | 0, _, _, _ => []
  | Nat.succ fuel, s, chunk_size, pad_char =>
      if s.length ≤ chunk_size then
        [List.replicate (chunk_size - s.length) pad_char ++ s]
      else
        _split_into_chunks fuel (s.take (s.length - chunk_size)) chunk_size
            pad_char
          ++ [s.drop (s.length - chunk_size)]

/-- `split_into_chunks` (src/utils.py, lines 34-51). -/
def split_into_chunks (s : List Char) (chunk_size : ℕ) (pad_char : Char) :
    List (List Char) :=
  _split_into_chunks (s.length + 1) s chunk_size pad_char

/-- `ones_and_zeros_to_bytes` (src/utils.py, lines 76-97): drop spaces,
split into 8-character chunks (left-padded with "0"), convert each chunk to
its integer byte value; the result models the returned `bytes` object. -/
def ones_and_zeros_to_bytes (s : List Char) : List ℕ :=
  (split_into_chunks (s.filter (fun c => c != ' ')) 8 '0').map
    ones_and_zeros_to_int

/-- The binary digit string of `n` in `width` characters, most significant
first: the form in which the ieee754 package renders each bit field of a
double. -/
def natToBinChars : ℕ → ℕ → List Char
  | 0, _ => []
  | Nat.succ w, n =>
      natToBinChars w (n / 2) ++ [if n % 2 = 1 then '1' else '0']

/-- The ieee754 package's `double(x).sign` on the host double with 64-bit
pattern `n` (the source asserts its width is 1). -/
def ieee754_sign (n : ℕ) : List Char := natToBinChars 1 (n / 2 ^ 63)

/-- `double(x).exponent`: the 11 exponent bits of the pattern. -/
def ieee754_exponent (n : ℕ) : List Char :=
  natToBinChars 11 (n / 2 ^ 52 % 2 ^ 11)

/-- `double(x).mantissa`: the 52 mantissa bits of the pattern. -/
def ieee754_mantissa (n : ℕ) : List Char := natToBinChars 52 (n % 2 ^ 52)

/-- A cvc5 floating-point value term of sort FP64: it carries the canonical
64-bit pattern of its value — canonical because the SMT-LIB FP sort has a
single NaN value, so distinct NaN bit patterns denote the same term and
`getFloatingPointValue`/`getBitVectorValue` read back one pattern. -/
structure FPTerm where
  bits : List Char
deriving DecidableEq, Repr

/-- The IEEE-754 NaN test on a 64-bit pattern: exponent field all ones
(2047) with a nonzero mantissa field. -/
def isNaNPattern64 (n : ℕ) : Bool :=
  (n / 2 ^ 52 % 2 ^ 11 == 2047) && (n % 2 ^ 52 != 0)

/-- The bit pattern cvc5 (via symfpu) packs the FP sort's single NaN value
to: the positive quiet NaN `(fp #b0 #b11111111111 #b100…0)`,
0x7ff8000000000000. -/
def canonicalNaN64 : ℕ := 2047 * 2 ^ 52 + 2 ^ 51

/-- cvc5's `mkFloatingPoint(11, 53, mkBitVector(64, bit_str, 2))`
(src/utils.py, lines 144-146): the bit vector is unpacked into a
floating-point *value*; every NaN bit pattern denotes the one NaN value of
the sort, whose canonical pattern the term then carries, while every
non-NaN pattern is preserved exactly. -/
def mkFloatingPoint64 (bits : List Char) : FPTerm :=
  if isNaNPattern64 (ones_and_zeros_to_int bits) then
    ⟨natToBinChars 64 canonicalNaN64⟩
  else ⟨bits⟩

/-- `double_to_fp64` (src/utils.py, lines 123-147): concatenate the sign,
exponent and mantissa bit strings of the host double (64-bit pattern `n`)
and hand them to `mkFloatingPoint`. -/
def double_to_fp64 (n : ℕ) : FPTerm :=
  mkFloatingPoint64 (ieee754_sign n ++ ieee754_exponent n ++ ieee754_mantissa n)

/-- Python `struct.unpack(">d", bits)[0]`: reassemble the eight bytes,
big-endian, into the host double — here its 64-bit pattern. -/
def unpack_big_endian_double (byteVals : List ℕ) : ℕ :=
  byteVals.foldl (fun a b => a * 256 + b) 0

/-- `fp64_to_float` (src/utils.py, lines 150-181): read the term's value's
64-bit vector out with `getFloatingPointValue`/`getBitVectorValue` (the
canonical pattern the term carries), convert it to bytes, and unpack it
big-endian. -/
def fp64_to_float (t : FPTerm) : ℕ :=
  unpack_big_endian_double (ones_and_zeros_to_bytes t.bits)

/-- The numeric value of a finite IEEE-754 double bit pattern (sign bit,
11 exponent bits biased by 1023, 52 mantissa bits, subnormals at exponent
0): this anchors the bit strings in the claim to the numbers they denote. -/
def fpValue (n : ℕ) : ℚ :=
  let sign : ℚ := if n / 2 ^ 63 % 2 = 1 then -1 else 1
  let e : ℕ := n / 2 ^ 52 % 2 ^ 11
  let m : ℕ := n % 2 ^ 52
  if e = 0 then sign * (m : ℚ) / 2 ^ 52 * (2 : ℚ) ^ (-(1022 : ℤ))
  else sign * ((2 ^ 52 + m : ℕ) : ℚ) / 2 ^ 52 * (2 : ℚ) ^ ((e : ℤ) - 1023)

theorem natToBinChars_length (w n : ℕ) : (natToBinChars w n).length = w := by
  induction w generalizing n with
  | zero => rfl
  | succ w ih => simp [natToBinChars, ih]

theorem natToBinChars_no_space (w n : ℕ) :
    (natToBinChars w n).filter (fun c => c != ' ') = natToBinChars w n := by
  induction w generalizing n with
  | zero => rfl
  | succ w ih =>
      simp only [natToBinChars, List.filter_append, ih]
      split <;> rfl

theorem ones_and_zeros_to_int_snoc (xs : List Char) (c : Char) :
    ones_and_zeros_to_int (xs ++ [c]) =
      ones_and_zeros_to_int xs * 2 + (if c = '1' then 1 else 0) := by
  simp [ones_and_zeros_to_int, ones_and_zeros_to_int_rev]

theorem ones_and_zeros_natToBinChars (w n : ℕ) :
    ones_and_zeros_to_int (natToBinChars w n) = n % 2 ^ w := by
  induction w generalizing n with
  | zero =>
      simp [natToBinChars, ones_and_zeros_to_int, ones_and_zeros_to_int_rev]
      omega
  | succ w ih =>
      rw [natToBinChars, ones_and_zeros_to_int_snoc, ih]
      have hbit : (if (if n % 2 = 1 then '1' else '0') = '1' then 1 else 0) =
          n % 2 := by
        rcases Nat.mod_two_eq_zero_or_one n with h | h <;> simp [h]
      rw [hbit, pow_succ, mul_comm (2 ^ w) 2, Nat.mod_mul]
      omega

theorem split_chunks_base (fuel : ℕ) (ys : List Char) (p : Char)
    (hys : ys.length = 8) :
    _split_into_chunks (fuel + 1) ys 8 p = [ys] := by
  simp [_split_into_chunks, hys]

theorem split_chunks_step (fuel : ℕ) (xs ys : List Char) (p : Char)
    (hys : ys.length = 8) (hxs : xs ≠ []) :
    _split_into_chunks (fuel + 1) (xs ++ ys) 8 p =
      _split_into_chunks fuel xs 8 p ++ [ys] := by
  have hpos : 0 < xs.length := List.length_pos.mpr hxs
  have hlen : (xs ++ ys).length = xs.length + 8 := by simp [hys]
  have hgt : ¬ (xs ++ ys).length ≤ 8 := by omega
  simp only [_split_into_chunks, hlen, Nat.add_sub_cancel, List.take_left,
    List.drop_left]
  rw [if_neg (by omega : ¬ xs.length + 8 ≤ 8)]

theorem natToBinChars_split (w1 w2 n : ℕ) :
    natToBinChars (w1 + w2) n =
      natToBinChars w1 (n / 2 ^ w2) ++ natToBinChars w2 (n % 2 ^ w2) := by
  induction w2 generalizing n with
  | zero => simp [natToBinChars]
  | succ w2 ih =>
      have e1 : n / 2 / 2 ^ w2 = n / 2 ^ (w2 + 1) := by
        rw [Nat.div_div_eq_div_mul, pow_succ, mul_comm (2 ^ w2) 2,
          mul_comm 2 (2 ^ w2)]
      have e2 : n % 2 ^ (w2 + 1) / 2 = n / 2 % 2 ^ w2 := by
        rw [pow_succ, mul_comm (2 ^ w2) 2]
        exact Nat.mod_mul_right_div_self n 2 (2 ^ w2)
      have e3 : n % 2 ^ (w2 + 1) % 2 = n % 2 := by
        exact Nat.mod_mod_of_dvd n (dvd_pow_self 2 (Nat.succ_ne_zero w2))
      have harr : w1 + (w2 + 1) = (w1 + w2) + 1 := rfl
      rw [harr, natToBinChars, ih (n / 2), e1]
      conv_rhs => rw [natToBinChars]
      rw [e2, e3, List.append_assoc]

/-- The concatenated sign, exponent and mantissa strings of the ieee754
package are the 64-bit binary string of the pattern `n`. -/
theorem double_bits_concat (n : ℕ) :
    ieee754_sign n ++ ieee754_exponent n ++ ieee754_mantissa n =
      natToBinChars 64 n := by
  have hexp : n % 2 ^ 63 / 2 ^ 52 = n / 2 ^ 52 % 2 ^ 11 := by
    have := Nat.mod_mul_right_div_self n (2 ^ 52) (2 ^ 11)
    norm_num at this
    exact this
  have hman : n % 2 ^ 63 % 2 ^ 52 = n % 2 ^ 52 :=
    Nat.mod_mod_of_dvd n (pow_dvd_pow 2 (by omega))
  rw [show (64 : ℕ) = 1 + 63 from rfl, natToBinChars_split 1 63 n,
    show (63 : ℕ) = 11 + 52 from rfl, natToBinChars_split 11 52 (n % 2 ^ 63),
    hexp, hman, ieee754_sign, ieee754_exponent, ieee754_mantissa,
    List.append_assoc]

/-- For a non-NaN pattern the floating-point term built by `double_to_fp64`
carries the 64-bit binary string of `n` unchanged. -/
theorem double_to_fp64_bits (n : ℕ) (h : n < 2 ^ 64)
    (hnan : isNaNPattern64 n = false) :
    (double_to_fp64 n).bits = natToBinChars 64 n := by
  rw [double_to_fp64, double_bits_concat, mkFloatingPoint64,
    ones_and_zeros_natToBinChars, Nat.mod_eq_of_lt h, hnan]
  rfl

/-- For a NaN pattern the floating-point term built by `double_to_fp64` is
the canonical NaN term. -/
theorem double_to_fp64_nan (n : ℕ) (h : n < 2 ^ 64)
    (hnan : isNaNPattern64 n = true) :
    double_to_fp64 n = ⟨natToBinChars 64 canonicalNaN64⟩ := by
  rw [double_to_fp64, double_bits_concat, mkFloatingPoint64,
    ones_and_zeros_natToBinChars, Nat.mod_eq_of_lt h, hnan]
  rfl

theorem natToBinChars_mod (w : ℕ) : ∀ n : ℕ,
    natToBinChars w (n % 2 ^ w) = natToBinChars w n := by
  induction w with
  | zero => intro n; rfl
  | succ w ih =>
      intro n
      have e2 : n % 2 ^ (w + 1) / 2 = n / 2 % 2 ^ w := by
        rw [pow_succ, mul_comm (2 ^ w) 2]
        exact Nat.mod_mul_right_div_self n 2 (2 ^ w)
      have e3 : n % 2 ^ (w + 1) % 2 = n % 2 :=
        Nat.mod_mod_of_dvd n (dvd_pow_self 2 (Nat.succ_ne_zero w))
      rw [natToBinChars, natToBinChars, e2, e3, ih]

/-- The expected chunking of a `8 * k`-bit binary string: one 8-character
chunk per byte, most significant first. -/
def binByteChunks : ℕ → ℕ → List (List Char)
  | 0, _ => []
  | Nat.succ k, n => binByteChunks k (n / 2 ^ 8) ++ [natToBinChars 8 (n % 2 ^ 8)]

/-- The byte values of the low `8 * k` bits of `n`, most significant first. -/
def byteList : ℕ → ℕ → List ℕ
  | 0, _ => []
  | Nat.succ k, n => byteList k (n / 2 ^ 8) ++ [n % 2 ^ 8]

theorem split_bin_bytes (k : ℕ) : ∀ (fuel n : ℕ), 1 ≤ k → k ≤ fuel + 1 →
    _split_into_chunks (fuel + 1) (natToBinChars (8 * k) n) 8 '0' =
      binByteChunks k n := by
  induction k with
  | zero => intro fuel n h1 _; omega
  | succ k ih =>
      intro fuel n _ hk
      rcases Nat.eq_zero_or_pos k with hk0 | hkpos
      · subst hk0
        show _split_into_chunks (fuel + 1) (natToBinChars 8 n) 8 '0' = _
        rw [split_chunks_base fuel _ _ (natToBinChars_length 8 n)]
        show _ = [natToBinChars 8 (n % 2 ^ 8)]
        rw [natToBinChars_mod]
      · have hsplit8 : natToBinChars (8 * (k + 1)) n =
            natToBinChars (8 * k) (n / 2 ^ 8) ++ natToBinChars 8 (n % 2 ^ 8) := by
          rw [show 8 * (k + 1) = 8 * k + 8 by ring, natToBinChars_split]
        rcases Nat.exists_eq_add_of_le (show 1 ≤ fuel by omega) with ⟨f, hf⟩
        subst hf
        rw [hsplit8, show 1 + f + 1 = (f + 1) + 1 by ring,
          split_chunks_step (f + 1) _ _ _ (natToBinChars_length 8 _)
            (by
              have := natToBinChars_length (8 * k) (n / 2 ^ 8)
              intro hnil
              rw [hnil] at this
              simp at this
              omega),
          ih f (n / 2 ^ 8) hkpos (by omega)]
        rfl

theorem map_ones_binByteChunks (k : ℕ) : ∀ n : ℕ,
    (binByteChunks k n).map ones_and_zeros_to_int = byteList k n := by
  induction k with
  | zero => intro n; rfl
  | succ k ih =>
      intro n
      show (binByteChunks k (n / 2 ^ 8) ++ [natToBinChars 8 (n % 2 ^ 8)]).map
            ones_and_zeros_to_int = _
      have hone : ones_and_zeros_to_int (natToBinChars 8 (n % 2 ^ 8)) =
          n % 2 ^ 8 := by
        rw [ones_and_zeros_natToBinChars,
          Nat.mod_mod_of_dvd n (dvd_refl (2 ^ 8))]
      rw [List.map_append, ih]
      show _ = byteList k (n / 2 ^ 8) ++ [n % 2 ^ 8]
      simp only [List.map_cons, List.map_nil]
      rw [hone]

theorem foldl_byteList (k : ℕ) : ∀ (n a : ℕ),
    (byteList k n).foldl (fun x b => x * 256 + b) a =
      a * 2 ^ (8 * k) + n % 2 ^ (8 * k) := by
  induction k with
  | zero =>
      intro n a
      simp [byteList]
      omega
  | succ k ih =>
      intro n a
      show ((byteList k (n / 2 ^ 8) ++ [n % 2 ^ 8]).foldl
        (fun x b => x * 256 + b) a) = _
      rw [List.foldl_append, ih]
      show (a * 2 ^ (8 * k) + n / 2 ^ 8 % 2 ^ (8 * k)) * 256 + n % 2 ^ 8 = _
      have hmod : n % 2 ^ (8 * (k + 1)) =
          n % 2 ^ 8 + 2 ^ 8 * (n / 2 ^ 8 % 2 ^ (8 * k)) := by
        rw [show 8 * (k + 1) = 8 + 8 * k by ring, pow_add]
        exact Nat.mod_mul
      rw [hmod, show 8 * (k + 1) = 8 * k + 8 by ring, pow_add]
      ring

/-- Unpacking the byte rendering of a 64-bit binary string recovers the
pattern. -/
theorem unpack_natToBinChars (n : ℕ) (h : n < 2 ^ 64) :
    unpack_big_endian_double (ones_and_zeros_to_bytes (natToBinChars 64 n)) =
      n := by
  show unpack_big_endian_double
    ((split_into_chunks ((natToBinChars 64 n).filter (fun c => c != ' '))
      8 '0').map ones_and_zeros_to_int) = n
  rw [natToBinChars_no_space]
  show unpack_big_endian_double
    ((_split_into_chunks ((natToBinChars 64 n).length + 1)
      (natToBinChars 64 n) 8 '0').map ones_and_zeros_to_int) = n
  rw [natToBinChars_length,
    show natToBinChars 64 n = natToBinChars (8 * 8) n from rfl,
    split_bin_bytes 8 64 n (by omega) (by omega),
    map_ones_binByteChunks]
  show (byteList 8 n).foldl (fun x b => x * 256 + b) 0 = n
  rw [foldl_byteList]
  simp
  omega

/-- The FP64 codec round-trips every non-NaN 64-bit pattern. -/
theorem fp64_round_trip (n : ℕ) (h : n < 2 ^ 64)
    (hnan : isNaNPattern64 n = false) :
    fp64_to_float (double_to_fp64 n) = n := by
  show unpack_big_endian_double
    (ones_and_zeros_to_bytes (double_to_fp64 n).bits) = n
  rw [double_to_fp64_bits n h hnan]
  exact unpack_natToBinChars n h

/-- Every NaN 64-bit pattern comes back as the canonical NaN pattern. -/
theorem fp64_nan_collapse (n : ℕ) (h : n < 2 ^ 64)
    (hnan : isNaNPattern64 n = true) :
    fp64_to_float (double_to_fp64 n) = canonicalNaN64 := by
  show unpack_big_endian_double
    (ones_and_zeros_to_bytes (double_to_fp64 n).bits) = canonicalNaN64
  rw [double_to_fp64_nan n h hnan]
  exact unpack_natToBinChars canonicalNaN64 (by norm_num [canonicalNaN64])

/-- The repository's worked example: the IEEE-754 pattern of 13.375
(sign 0, exponent 10000000010, mantissa 1010110…0). -/
def fp13375 : ℕ := 1026 * 2 ^ 52 + 2 ^ 51 + 2 ^ 49 + 2 ^ 47 + 2 ^ 46

set_option maxRecDepth 8000 in
/-- C9 counterexample: the host double `float('-nan')`, bit pattern
0xfff8000000000000 (sign 1, exponent all ones, mantissa 100…0), does not
round-trip bit-for-bit: the FP sort has a single NaN value, so the codec
returns cvc5's canonical NaN pattern 0x7ff8000000000000 instead. -/
theorem C9_fp64_codec_counterexample :
    fp64_to_float (double_to_fp64 (2 ^ 63 + 2047 * 2 ^ 52 + 2 ^ 51)) =
      2047 * 2 ^ 52 + 2 ^ 51 ∧
    2047 * 2 ^ 52 + 2 ^ 51 ≠ 2 ^ 63 + 2047 * 2 ^ 52 + 2 ^ 51 :=
  ⟨by decide, by decide⟩

/-- C9 (amended): the FP64 codec round-trips every non-NaN host double
bit-for-bit (stated on the double's 64-bit pattern, which is what "the
identical 64-bit representation" means) — in particular 13.375, -13.375,
0.0 and whole numbers; every NaN payload pattern instead comes back as the
single canonical NaN pattern 0x7ff8000000000000, since the FP sort has one
NaN value; and 13.375 encodes to sign bit 0, exponent bits 10000000010,
mantissa bits 1010110…0.  The final conjuncts anchor the bit patterns to
the numbers they denote: the stated pattern denotes 13.375 = 107/8, the
sign-flipped pattern denotes -13.375, and the zero pattern denotes 0.0. -/
theorem C9_fp64_codec :
    (∀ n : ℕ, n < 2 ^ 64 → isNaNPattern64 n = false →
      fp64_to_float (double_to_fp64 n) = n) ∧
    (∀ n : ℕ, n < 2 ^ 64 → isNaNPattern64 n = true →
      fp64_to_float (double_to_fp64 n) = canonicalNaN64) ∧
    ieee754_sign fp13375 = ['0'] ∧
    ieee754_exponent fp13375 = "10000000010".toList ∧
    ieee754_mantissa fp13375 =
      "1010110000000000000000000000000000000000000000000000".toList ∧
    fpValue fp13375 = 107 / 8 ∧
    ieee754_sign (2 ^ 63 + fp13375) = ['1'] ∧
    fpValue (2 ^ 63 + fp13375) = -(107 / 8) ∧
    fpValue 0 = 0 := by
  refine ⟨fp64_round_trip, fp64_nan_collapse, by decide, by decide,
    by decide, ?_, by decide, ?_, ?_⟩
  · have hs : fp13375 / 2 ^ 63 % 2 = 0 := by decide
    have he : fp13375 / 2 ^ 52 % 2 ^ 11 = 1026 := by decide
    have hm : fp13375 % 2 ^ 52 = 2 ^ 51 + 2 ^ 49 + 2 ^ 47 + 2 ^ 46 := by decide
    rw [fpValue, hs, he, hm]
    norm_num
  · have hs : (2 ^ 63 + fp13375) / 2 ^ 63 % 2 = 1 := by decide
    have he : (2 ^ 63 + fp13375) / 2 ^ 52 % 2 ^ 11 = 1026 := by decide
    have hm : (2 ^ 63 + fp13375) % 2 ^ 52 =
        2 ^ 51 + 2 ^ 49 + 2 ^ 47 + 2 ^ 46 := by decide
    rw [fpValue, hs, he, hm]
    norm_num
  · rw [fpValue]
    norm_num

/-- Witness for C9: the round-trip conjunct applied at the 13.375 pattern
and at zero, and the NaN-collapse conjunct applied at a signaling-NaN
payload pattern. -/
theorem C9_fp64_codec_witness :
    fp64_to_float (double_to_fp64 fp13375) = fp13375 ∧
    fp64_to_float (double_to_fp64 0) = 0 ∧
    fp64_to_float (double_to_fp64 (2047 * 2 ^ 52 + 1)) = canonicalNaN64 :=
  ⟨C9_fp64_codec.1 fp13375 (by decide) (by decide),
   C9_fp64_codec.1 0 (by decide) (by decide),
   C9_fp64_codec.2.1 (2047 * 2 ^ 52 + 1) (by decide) (by decide)⟩

/-- CPython `datetime._DAYS_IN_MONTH` (non-leap February). -/
def daysInMonth : ℕ → ℕ
  | 1 => 31
  | 2 => 28
  | 3 => 31
  | 4 => 30
  | 5 => 31
  | 6 => 30
  | 7 => 31
  | 8 => 31
  | 9 => 30
  | 10 => 31
  | 11 => 30
  | 12 => 31
  | _ => 0

/-- CPython `datetime._DAYS_BEFORE_MONTH` (cumulative, non-leap). -/
def daysBeforeMonth : ℕ → ℕ
  | 1 => 0
  | 2 => 31
  | 3 => 59
  | 4 => 90
  | 5 => 120
  | 6 => 151
  | 7 => 181
  | 8 => 212
  | 9 => 243
  | 10 => 273
  | 11 => 304
  | 12 => 334
  | _ => 365

/-- CPython `datetime._is_leap`. -/
def isLeap (y : ℕ) : Bool :=
  y % 4 == 0 && (y % 100 != 0 || y % 400 == 0)

/-- CPython `datetime._days_before_year`:
`(y-1)*365 + (y-1)//4 - (y-1)//100 + (y-1)//400`. -/
def daysBeforeYear (y : ℕ) : ℕ :=
  (y - 1) * 365 + (y - 1) / 4 - (y - 1) / 100 + (y - 1) / 400

/-- CPython `datetime._ymd2ord`: proleptic-Gregorian ordinal of a date
(0001-01-01 is ordinal 1). -/
def ymd2ord (y m d : ℕ) : ℕ :=
  daysBeforeYear y + daysBeforeMonth m +
    (if m > 2 && isLeap y then 1 else 0) + d

/-- The in-year step of CPython `datetime._ord2ymd`: month estimate
`(n + 50) >> 5` and its one-step correction, from the day-of-year remainder
`rr` and the leap flag; returns (month, day). -/
def monthDay (rr : ℕ) (leapyear : Bool) : ℕ × ℕ :=
  let month0 := (rr + 50) / 32
  let preceding0 := daysBeforeMonth month0 +
    (if month0 > 2 && leapyear then 1 else 0)
  let month := if preceding0 > rr then month0 - 1 else month0
  let preceding :=
    if preceding0 > rr then
      preceding0 -
        (daysInMonth month + (if month = 2 && leapyear then 1 else 0))
    else preceding0
  (month, rr - preceding + 1)

/-- CPython `datetime._ord2ymd`: the divmod chain by 146097 (400 years),
36524 (100 years), 1461 (4 years) and 365, the century/quadrennium edge
case, then the in-year month estimate. -/
def ord2ymd (nIn : ℕ) : ℕ × ℕ × ℕ :=
  let n := nIn - 1
  let n400 := n / 146097
  let r400 := n % 146097
  let year1 := n400 * 400 + 1
  let n100 := r400 / 36524
  let r100 := r400 % 36524
  let n4 := r100 / 1461
  let r4 := r100 % 1461
  let n1 := r4 / 365
  let rr := r4 % 365
  let year := year1 + n100 * 100 + n4 * 4 + n1
  if n1 = 4 ∨ n100 = 4 then (year - 1, 12, 31)
  else
    let leapyear := n1 == 3 && (n4 != 24 || n100 == 3)
    let md := monthDay rr leapyear
    (year, md.1, md.2)

/-- The decimal digit character for `r` (0-9). -/
def decDigitChar : ℕ → Char
  | 0 => '0'
  | 1 => '1'
  | 2 => '2'
  | 3 => '3'
  | 4 => '4'
  | 5 => '5'
  | 6 => '6'
  | 7 => '7'
  | 8 => '8'
  | 9 => '9'
  | _ => '0'

/-- The zero-padded decimal rendering of `n` in `width` characters, most
significant first (strftime's %Y/%m/%d fields in their padded form). -/
def natToDecChars : ℕ → ℕ → List Char
  | 0, _ => []
  | Nat.succ w, n => natToDecChars w (n / 10) ++ [decDigitChar (n % 10)]

/-- CPython `datetime.utcfromtimestamp(d * 86400)`, date part: ordinal
719163 (1970-01-01) plus `d` days, raising (none) outside years 1-9999. -/
def utcfromtimestamp_date (d : ℤ) : Option (ℕ × ℕ × ℕ) :=
  let ordinal : ℤ := 719163 + d
  if ordinal < 1 ∨ ordinal > 3652059 then none
  else some (ord2ymd ordinal.toNat)

/-- `convert_epochal_to_str` (src/utils.py, lines 346-359):
`utcfromtimestamp(epochal_date * 86400).strftime("%Y-%m-%d")`. -/
def convert_epochal_to_str (epochal_date : ℤ) : Option String :=
  (utcfromtimestamp_date epochal_date).map (fun ymd =>
    String.mk (natToDecChars 4 ymd.1 ++ ['-'] ++ natToDecChars 2 ymd.2.1 ++
      ['-'] ++ natToDecChars 2 ymd.2.2))

/-- Split a character list on a separator (the date-field split strptime
performs on "%Y-%m-%d"). -/
def splitOnChar (sep : Char) : List Char → List (List Char)
  | [] => [[]]
  | c :: rest =>
      if c = sep then [] :: splitOnChar sep rest
      else
        match splitOnChar sep rest with
        | [] => [[c]]
        | g :: gs => (c :: g) :: gs

/-- A run of decimal digits and its value (a strptime numeric field). -/
def parseDecChars (cs : List Char) : Option ℕ :=
  if cs.isEmpty then none
  else if cs.all Char.isDigit then some (digitsVal cs) else none

/-- `convert_date_to_epochal` (src/utils.py, lines 322-344): parse the date
with `strptime(date_string + " 12:00:00+0000", "%Y-%m-%d %H:%M:%S%z")`
(strptime/datetime validate the field ranges), take the aware datetime's
timestamp `(ymd2ord(y,m,d) - 719163) * 86400 + 43200` seconds, and return
`int(timestamp / 86400)` — the float quotient is exact here and `int()`
truncates toward zero, which is Lean's `Int.div`. -/
def convert_date_to_epochal (date_string : String) : Option ℤ :=
  match splitOnChar '-' date_string.toList with
  | [ys, ms, ds] => do
      let y ← parseDecChars ys
      let m ← parseDecChars ms
      let d ← parseDecChars ds
      if 1 ≤ y ∧ y ≤ 9999 ∧ 1 ≤ m ∧ m ≤ 12 ∧ 1 ≤ d ∧
          d ≤ daysInMonth m + (if m = 2 && isLeap y then 1 else 0) then
        let seconds : ℤ := ((ymd2ord y m d : ℤ) - 719163) * 86400 + 43200
        some (Int.tdiv seconds 86400)
      else none
  | _ => none

theorem decDigitChar_val (r : ℕ) (h : r < 10) :
    (decDigitChar r).toNat - 48 = r ∧ (decDigitChar r).isDigit = true ∧
    decDigitChar r ≠ '-' := by
  interval_cases r <;> exact ⟨rfl, rfl, by decide⟩

theorem digitsVal_append (xs : List Char) (c : Char) :
    digitsVal (xs ++ [c]) = digitsVal xs * 10 + (c.toNat - 48) := by
  simp [digitsVal, List.foldl_append]

theorem digitsVal_natToDecChars (w : ℕ) : ∀ n : ℕ,
    digitsVal (natToDecChars w n) = n % 10 ^ w := by
  induction w with
  | zero =>
      intro n
      simp [natToDecChars, digitsVal]
      omega
  | succ w ih =>
      intro n
      have h10 : n % 10 < 10 := Nat.mod_lt _ (by norm_num)
      rw [natToDecChars, digitsVal_append, ih, (decDigitChar_val (n % 10) h10).1,
        pow_succ, mul_comm (10 ^ w) 10, Nat.mod_mul]
      omega

theorem natToDecChars_digits (w : ℕ) : ∀ n : ℕ,
    (natToDecChars w n).all Char.isDigit = true := by
  induction w with
  | zero => intro n; rfl
  | succ w ih =>
      intro n
      have h10 : n % 10 < 10 := Nat.mod_lt _ (by norm_num)
      rw [natToDecChars, List.all_append, ih]
      simp [(decDigitChar_val (n % 10) h10).2.1]

theorem natToDecChars_no_dash (w : ℕ) : ∀ (n : ℕ) (c : Char),
    c ∈ natToDecChars w n → c ≠ '-' := by
  induction w with
  | zero =>
      intro n c hc
      simp [natToDecChars] at hc
  | succ w ih =>
      intro n c hc
      rw [natToDecChars] at hc
      rcases List.mem_append.mp hc with h | h
      · exact ih _ _ h
      · have h10 : n % 10 < 10 := Nat.mod_lt _ (by norm_num)
        have hceq := List.mem_singleton.mp h
        subst hceq
        exact (decDigitChar_val (n % 10) h10).2.2

theorem natToDecChars_length (w : ℕ) : ∀ n : ℕ,
    (natToDecChars w n).length = w := by
  induction w with
  | zero => intro n; rfl
  | succ w ih => intro n; simp [natToDecChars, ih]

theorem parseDec_natToDecChars (w n : ℕ) (hw : 1 ≤ w) :
    parseDecChars (natToDecChars w n) = some (n % 10 ^ w) := by
  unfold parseDecChars
  have hne : (natToDecChars w n).isEmpty = false := by
    rcases hl : natToDecChars w n with _ | ⟨c, cs⟩
    · exfalso
      have hlen := natToDecChars_length w n
      rw [hl] at hlen
      simp at hlen
      omega
    · rfl
  rw [hne, natToDecChars_digits w n]
  simp [digitsVal_natToDecChars]

theorem splitOnChar_no_sep (sep : Char) : ∀ cs : List Char,
    (∀ c ∈ cs, c ≠ sep) → splitOnChar sep cs = [cs] := by
  intro cs
  induction cs with
  | nil => intro _; rfl
  | cons c rest ih =>
      intro hno
      rw [splitOnChar, if_neg (hno c (by simp)), ih (fun x hx => hno x (by simp [hx]))]

theorem splitOnChar_append (sep : Char) : ∀ (xs rest : List Char),
    (∀ c ∈ xs, c ≠ sep) →
    splitOnChar sep (xs ++ sep :: rest) = xs :: splitOnChar sep rest := by
  intro xs
  induction xs with
  | nil =>
      intro rest _
      simp [splitOnChar]
  | cons c xs ih =>
      intro rest hno
      rw [List.cons_append, splitOnChar, if_neg (hno c (by simp)),
        ih rest (fun x hx => hno x (by simp [hx]))]

theorem daysInMonth_le (m : ℕ) : daysInMonth m ≤ 31 := by
  unfold daysInMonth
  split <;> norm_num

/-- Boolean check of the in-year month/day extraction: field validity and
the cumulative-offset equation, at one day-of-year remainder. -/
def monthDayCheck (rr : ℕ) (leap : Bool) : Bool :=
  let p := monthDay rr leap
  decide (1 ≤ p.1) && decide (p.1 ≤ 12) && decide (1 ≤ p.2) &&
    decide (p.2 ≤ daysInMonth p.1 + (if p.1 = 2 && leap then 1 else 0)) &&
    (daysBeforeMonth p.1 + (if p.1 > 2 && leap then 1 else 0) + (p.2 - 1)
      == rr)

set_option maxRecDepth 8000 in
theorem monthDayCheck_all :
    ((List.range 365).all fun rr =>
      monthDayCheck rr true && monthDayCheck rr false) = true := by decide

theorem monthDay_spec (rr : ℕ) (h : rr < 365) (leap : Bool) :
    1 ≤ (monthDay rr leap).1 ∧ (monthDay rr leap).1 ≤ 12 ∧
    1 ≤ (monthDay rr leap).2 ∧
    (monthDay rr leap).2 ≤ daysInMonth (monthDay rr leap).1 +
      (if (monthDay rr leap).1 = 2 && leap then 1 else 0) ∧
    daysBeforeMonth (monthDay rr leap).1 +
      (if (monthDay rr leap).1 > 2 && leap then 1 else 0) +
      ((monthDay rr leap).2 - 1) = rr := by
  have hb : monthDayCheck rr leap = true := by
    have hall := monthDayCheck_all
    rw [List.all_eq_true] at hall
    have hx := hall rr (List.mem_range.mpr h)
    rw [Bool.and_eq_true] at hx
    cases leap
    · exact hx.2
    · exact hx.1
  simp only [monthDayCheck] at hb
  rw [Bool.and_eq_true, Bool.and_eq_true, Bool.and_eq_true,
    Bool.and_eq_true] at hb
  obtain ⟨⟨⟨⟨c1, c2⟩, c3⟩, c4⟩, c5⟩ := hb
  exact ⟨of_decide_eq_true c1, of_decide_eq_true c2, of_decide_eq_true c3,
    of_decide_eq_true c4, eq_of_beq c5⟩

/-- CPython's `_ord2ymd` and `_ymd2ord` are mutually inverse on the ordinal
range of years 1-9999, and `_ord2ymd` yields a valid calendar date. -/
theorem ymd2ord_ord2ymd (N : ℕ) (h1 : 1 ≤ N) (h2 : N ≤ 3652059) :
    ymd2ord (ord2ymd N).1 (ord2ymd N).2.1 (ord2ymd N).2.2 = N ∧
    1 ≤ (ord2ymd N).1 ∧ (ord2ymd N).1 ≤ 9999 ∧
    1 ≤ (ord2ymd N).2.1 ∧ (ord2ymd N).2.1 ≤ 12 ∧
    1 ≤ (ord2ymd N).2.2 ∧
    (ord2ymd N).2.2 ≤ daysInMonth (ord2ymd N).2.1 +
      (if (ord2ymd N).2.1 = 2 && isLeap (ord2ymd N).1 then 1 else 0) := by
  obtain ⟨n, rfl⟩ : ∃ n, N = n + 1 := ⟨N - 1, by omega⟩
  have hnsub : n + 1 - 1 = n := rfl
  simp only [ord2ymd, hnsub]
  set n400 := n / 146097 with hn400
  set r400 := n % 146097 with hr400
  set n100 := r400 / 36524 with hn100
  set r100 := r400 % 36524 with hr100
  set n4 := r100 / 1461 with hn4
  set r4 := r100 % 1461 with hr4
  set n1 := r4 / 365 with hn1
  set rr := r4 % 365 with hrr
  have f1 : 146097 * n400 + r400 = n := Nat.div_add_mod n 146097
  have f2 : 36524 * n100 + r100 = r400 := Nat.div_add_mod r400 36524
  have f3 : 1461 * n4 + r4 = r100 := Nat.div_add_mod r100 1461
  have f4 : 365 * n1 + rr = r4 := Nat.div_add_mod r4 365
  have b1 : r400 < 146097 := Nat.mod_lt _ (by norm_num)
  have b2 : r100 < 36524 := Nat.mod_lt _ (by norm_num)
  have b3 : r4 < 1461 := Nat.mod_lt _ (by norm_num)
  have b4 : rr < 365 := Nat.mod_lt _ (by norm_num)
  have bn : n ≤ 3652058 := by omega
  by_cases hsp : n1 = 4 ∨ n100 = 4
  · rw [if_pos hsp]
    dsimp only
    have hyear1 : 1 ≤ n400 * 400 + 1 + n100 * 100 + n4 * 4 + n1 - 1 := by
      omega
    have hy9999 : n400 * 400 + 1 + n100 * 100 + n4 * 4 + n1 - 1 ≤ 9999 := by
      omega
    refine ⟨?_, hyear1, hy9999, by norm_num, by norm_num, by norm_num, ?_⟩
    · unfold ymd2ord daysBeforeYear
      have hdbm : daysBeforeMonth 12 = 334 := rfl
      rw [hdbm]
      rcases hsp with h4 | h100
      · have hn4le : n4 ≤ 23 := by omega
        have hsub : n400 * 400 + 1 + n100 * 100 + n4 * 4 + n1 - 1 - 1 =
            400 * n400 + 100 * n100 + 4 * n4 + 3 := by omega
        rw [hsub]
        have e1 : (400 * n400 + 100 * n100 + 4 * n4 + 3) / 4 =
            100 * n400 + 25 * n100 + n4 := by omega
        have e2 : (400 * n400 + 100 * n100 + 4 * n4 + 3) / 100 =
            4 * n400 + n100 := by omega
        have e3 : (400 * n400 + 100 * n100 + 4 * n4 + 3) / 400 = n400 := by
          omega
        rw [e1, e2, e3]
        have hleapT : isLeap (n400 * 400 + 1 + n100 * 100 + n4 * 4 + n1 - 1)
            = true := by
          simp only [isLeap, Bool.and_eq_true, Bool.or_eq_true, beq_iff_eq,
            bne_iff_ne, decide_eq_true_eq]
          omega
        rw [if_pos (by simp [hleapT])]
        omega
      · have hr400 : r400 = 146096 := by omega
        have hsub : n400 * 400 + 1 + n100 * 100 + n4 * 4 + n1 - 1 - 1 =
            400 * n400 + 399 := by omega
        rw [hsub]
        have e1 : (400 * n400 + 399) / 4 = 100 * n400 + 99 := by omega
        have e2 : (400 * n400 + 399) / 100 = 4 * n400 + 3 := by omega
        have e3 : (400 * n400 + 399) / 400 = n400 := by omega
        rw [e1, e2, e3]
        have hleapT : isLeap (n400 * 400 + 1 + n100 * 100 + n4 * 4 + n1 - 1)
            = true := by
          simp only [isLeap, Bool.and_eq_true, Bool.or_eq_true, beq_iff_eq,
            bne_iff_ne, decide_eq_true_eq]
          omega
        rw [if_pos (by simp [hleapT])]
        omega
    · rw [if_neg (by simp)]
      norm_num [daysInMonth]
  · rw [if_neg hsp]
    dsimp only
    push_neg at hsp
    obtain ⟨hn1le, hn100le⟩ : n1 ≤ 3 ∧ n100 ≤ 3 := by omega
    set leapf := (n1 == 3 && (n4 != 24 || n100 == 3)) with hleapf
    obtain ⟨hm1, hm12, hd1, hdle, heq⟩ := monthDay_spec rr b4 leapf
    have hliff : (isLeap (n400 * 400 + 1 + n100 * 100 + n4 * 4 + n1) = true) ↔
        (n1 = 3 ∧ (n4 ≠ 24 ∨ n100 = 3)) := by
      simp only [isLeap, Bool.and_eq_true, Bool.or_eq_true, beq_iff_eq,
        bne_iff_ne, decide_eq_true_eq]
      omega
    have hlfiff : (leapf = true) ↔ (n1 = 3 ∧ (n4 ≠ 24 ∨ n100 = 3)) := by
      rw [hleapf]
      simp only [Bool.and_eq_true, Bool.or_eq_true, beq_iff_eq, bne_iff_ne]
    have hleq : isLeap (n400 * 400 + 1 + n100 * 100 + n4 * 4 + n1) = leapf := by
      have hiff := hliff.trans hlfiff.symm
      rcases Bool.eq_false_or_eq_true leapf with hv | hv <;>
        rcases Bool.eq_false_or_eq_true
          (isLeap (n400 * 400 + 1 + n100 * 100 + n4 * 4 + n1)) with hw | hw <;>
        simp_all
    refine ⟨?_, by omega, by omega, hm1, hm12, hd1, ?_⟩
    · unfold ymd2ord daysBeforeYear
      rw [hleq]
      have hn4le : n4 ≤ 24 := by omega
      have hsub : n400 * 400 + 1 + n100 * 100 + n4 * 4 + n1 - 1 =
          400 * n400 + 100 * n100 + 4 * n4 + n1 := by omega
      rw [hsub]
      have e1 : (400 * n400 + 100 * n100 + 4 * n4 + n1) / 4 =
          100 * n400 + 25 * n100 + n4 := by omega
      have e2 : (400 * n400 + 100 * n100 + 4 * n4 + n1) / 100 =
          4 * n400 + n100 := by omega
      have e3 : (400 * n400 + 100 * n100 + 4 * n4 + n1) / 400 = n400 := by
        omega
      rw [e1, e2, e3]
      set A := daysBeforeMonth (monthDay rr leapf).1 with hA
      set B := (if decide ((monthDay rr leapf).1 > 2) && leapf then 1 else 0)
        with hB
      set D := (monthDay rr leapf).2 with hD
      omega
    · rw [hleq]
      exact hdle

/-- `create_solver_and_check_sat` (src/core.py, lines 888-926): builds a fresh
solver, generates the facts and all the axioms, asserts them together with the
statement and calls `checkSat`.  The function contains no try/except, so an
exception thrown by the engine propagates to the caller; the engine call is
modelled by the `engine` parameter (`.error` = the engine threw). -/
def create_solver_and_check_sat (engine : Except String Outcome) :
    Except String Outcome :=
  engine

/-- `check_statement_validity` (src/core.py, lines 928-956): run the original
query, then the negated query, then combine through `combine_results`;
there is no exception handler on this path either. -/
def check_statement_validity (origEngine negatedEngine : Except String Outcome) :
    Except String (String × Outcome × Outcome) := do
  let orig_result ← create_solver_and_check_sat origEngine
  let negated_result ← create_solver_and_check_sat negatedEngine
  pure (combine_results orig_result negated_result, orig_result, negated_result)

/-- Counterexample to C8: when the engine throws on the original query
("engine crash") while the negated query would report unsat, the claim says
the exception is caught, the original branch is downgraded to unknown, and
the precedence table still yields the verdict "true"; the code instead
propagates the exception out of `check_statement_validity`. -/
theorem C8_exception_propagates_counterexample :
    check_statement_validity (.error "engine crash") (.ok Outcome.unsat) =
      .error "engine crash" := rfl

/-- C8 amended: `check_statement_validity` contains no exception handler: an
engine exception on the original query propagates (and the negated query is
then never consulted); an engine exception on the negated query propagates;
only when both engine calls return normally is the precedence-table verdict
produced.  (The sole engine-exception catch in the code base is in
`check_stmt_job`, the parallel path's worker, which reports the error through
the queue instead.) -/
theorem C8_exception_propagates :
    (∀ (e : String) (r : Except String Outcome),
      check_statement_validity (.error e) r = .error e) ∧
    (∀ (o : Outcome) (e : String),
      check_statement_validity (.ok o) (.error e) = .error e) ∧
    (∀ o n : Outcome,
      check_statement_validity (.ok o) (.ok n) =
        .ok (combine_results o n, o, n)) :=
  ⟨fun _ _ => rfl, fun _ _ => rfl, fun _ _ => rfl⟩

theorem String_mk_toList (l : List Char) : (String.mk l).toList = l := rfl

/-- C10 (amended): for every epochal-day value `d` with `0 ≤ d ≤ 2932896`
(1970-01-01 through 9999-12-31, the range on which `utcfromtimestamp` does not
raise and the timestamp is nonnegative), `convert_date_to_epochal`
(`convert_epochal_to_str d`) returns `d` exactly.  The claim's universal
round trip over all integers fails: `utcfromtimestamp` raises outside the
year range 1-9999, and for negative in-range days `int()` truncates the
float quotient toward zero instead of flooring, returning `d + 1`. -/
theorem C10_date_roundtrip (d : ℤ) (h0 : 0 ≤ d) (h1 : d ≤ 2932896) :
    (convert_epochal_to_str d).bind convert_date_to_epochal = some d := by
  have hNval : (((719163 + d).toNat : ℤ)) = 719163 + d :=
    Int.toNat_of_nonneg (by omega)
  set N : ℕ := (719163 + d).toNat with hN
  have hN1 : 1 ≤ N := by omega
  have hN2 : N ≤ 3652059 := by omega
  obtain ⟨hinv, hy1, hy2, hm1, hm2, hd1, hd2⟩ := ymd2ord_ord2ymd N hN1 hN2
  set y := (ord2ymd N).1 with hy
  set m := (ord2ymd N).2.1 with hm
  set dd := (ord2ymd N).2.2 with hdd
  have hydig : y < 10 ^ 4 := by omega
  have hmdig : m < 10 ^ 2 := by omega
  have hddlt : dd < 10 ^ 2 := by
    have h31 := daysInMonth_le m
    have hif : (if m = 2 && isLeap y then 1 else 0) ≤ 1 := by split <;> omega
    omega
  simp only [convert_epochal_to_str, utcfromtimestamp_date]
  rw [if_neg (by omega : ¬ ((719163 + d : ℤ) < 1 ∨ (719163 + d : ℤ) > 3652059))]
  rw [← hN]
  simp only [Option.map_some', Option.some_bind]
  rw [← hy, ← hm, ← hdd]
  rw [convert_date_to_epochal, String_mk_toList]
  simp only [List.append_assoc, List.singleton_append, List.cons_append,
      List.nil_append]
  rw [splitOnChar_append '-' _ _ (natToDecChars_no_dash 4 y),
      splitOnChar_append '-' _ _ (natToDecChars_no_dash 2 m),
      splitOnChar_no_sep '-' _ (natToDecChars_no_dash 2 dd)]
  simp only [parseDec_natToDecChars 4 y (by norm_num),
      parseDec_natToDecChars 2 m (by norm_num),
      parseDec_natToDecChars 2 dd (by norm_num),
      Option.bind_eq_bind, Option.some_bind, Nat.mod_eq_of_lt hydig,
      Nat.mod_eq_of_lt hmdig, Nat.mod_eq_of_lt hddlt]
  rw [if_pos ⟨hy1, hy2, hm1, hm2, hd1, hd2⟩]
  rw [hinv]
  have hsec : ((N : ℤ) - 719163) * 86400 + 43200 = d * 86400 + 43200 := by
    rw [hNval]; ring
  rw [hsec]
  have htd : Int.tdiv (d * 86400 + 43200) 86400 = d := by
    have he : Int.tdiv (d * 86400 + 43200) 86400 = (d * 86400 + 43200) / 86400 :=
      Int.tdiv_eq_ediv (by omega) (by omega)
    rw [he]; omega
  rw [htd]

/-- C10 counterexample: for the negative epochal day `-1` (1969-12-31, inside
datetime's year range), the round trip returns `0`, not `-1`: the timestamp is
`-43200` seconds and Python's `int(-43200 / 86400) = int(-0.5) = 0` truncates
toward zero instead of flooring. -/
theorem C10_date_roundtrip_counterexample :
    (convert_epochal_to_str (-1)).bind convert_date_to_epochal = some 0 ∧
    (some (0 : ℤ)) ≠ some (-1 : ℤ) :=
  ⟨rfl, by decide⟩

/-- C10 witness: the round trip holds at epochal day 17167 (2017-01-01). -/
theorem C10_date_roundtrip_witness :
    (convert_epochal_to_str 17167).bind convert_date_to_epochal = some 17167 :=
  C10_date_roundtrip 17167 (by decide) (by decide)

end Clinical
